import Mathlib

/-!
# Verification of the ORSO → RAT conversion pipeline

Shallow embedding of the `ort_to_rat` Python package: the bilayer stack-token
extractor, the lipid constant resolver, the bilayer spec builder, the ORSO
model extractor, and the two MATLAB emitters (model function and driver
script).  Machine floats are modelled as exact rationals; Python exceptions
as `Except String`; the generated MATLAB artifacts as structured line lists
(driver) and as the denotation of the generated function (model).
-/

namespace OrtToRat

/-! ## Basic string utilities (Python `str` helpers and `re.sub` runs) -/

/-- Python regex `\s` character class (ASCII part; inputs here are ASCII). -/
def isPySpace (c : Char) : Bool :=
  c = ' ' || c = '\t' || c = '\n' || c = '\r' || c = '\x0b' || c = '\x0c'

/-- Python `str.strip()` on a character list. -/
def pyStripList (cs : List Char) : List Char :=
  ((cs.dropWhile isPySpace).reverse.dropWhile isPySpace).reverse

/-- Python `str.strip()`. -/
def pyStrip (s : String) : String :=
  String.mk (pyStripList s.toList)

/-- `re.sub(p+-runs, rep, ·)` worker: replaces every maximal run of characters
satisfying `p` by the single character `rep`; the `Bool` argument records
whether the previous character was inside a run. -/
def subRunsAux (p : Char → Bool) (rep : Char) : Bool → List Char → List Char
  | _, [] => []
  | inRun, c :: cs =>
    if p c then
      (if inRun then subRunsAux p rep true cs else rep :: subRunsAux p rep true cs)
    else
      c :: subRunsAux p rep false cs

/-- Replace every maximal run of characters satisfying `p` by `rep`. -/
def subRuns (p : Char → Bool) (rep : Char) (s : String) : String :=
  String.mk (subRunsAux p rep false s.toList)

/-- `re.sub(r"\s+", " ", s)` — collapse whitespace runs to single spaces. -/
def collapseWs (s : String) : String := subRuns isPySpace ' ' s

/-- Regex word character `[A-Za-z0-9_]`. -/
def isWordChar (c : Char) : Bool := c.isAlpha || c.isDigit || c = '_'

/-- `re.sub(r"[^A-Za-z0-9_]+", "_", cname)` from the driver contrast loop. -/
def safeContrastName (s : String) : String :=
  subRuns (fun c => !isWordChar c) '_' s

/-- Python falsy test for an optional string (`None` or `""`). -/
def strFalsy : Option String → Bool
  | none => true
  | some s => s = ""

/-- Python `a or b` on optional strings. -/
def pyOrStr (a b : Option String) : Option String :=
  if strFalsy a then b else a

/-- `needle in hay` for character lists (contiguous sublist test). -/
def listInfix (needle : List Char) : List Char → Bool
  | [] => needle.isPrefixOf []
  | c :: cs => needle.isPrefixOf (c :: cs) || listInfix needle cs

/-- Python `needle in hay` on strings. -/
def strContains (hay needle : String) : Bool :=
  listInfix needle.toList hay.toList

/-- Python `str.lower()` (ASCII case folding; inputs here are ASCII). -/
def lowerStr (s : String) : String :=
  String.mk (s.toList.map Char.toLower)

/-- Python `str.replace("_", "\\_")` used for contrast display names. -/
def escapeUnderscores (s : String) : String :=
  String.mk (s.toList.flatMap fun c => if c = '_' then ['\\', '_'] else [c])

/-! ## Stack-Token Extractor (`bilayer_utils.extract_bilayers_from_model`)

The precompiled regex is
`^bilayer\s*\(\s*inner\s*=\s*([A-Za-z0-9_]+)\s*,\s*outer\s*=\s*([A-Za-z0-9_]+)\s*\)\s*$`.
Because the identifier class `[A-Za-z0-9_]` is disjoint from `\s` and from the
literal delimiters, the backtracking regex is equivalent to the deterministic
maximal-munch parser below. -/

/-- Raw bilayer token `{inner, outer}` found in a stack description. -/
structure BilayerRaw where
  inner : String
  outer : String
deriving DecidableEq, Repr

/-- Match a literal character sequence at the head of the input. -/
def matchLit : List Char → List Char → Option (List Char)
  | [], cs => some cs
  | _ :: _, [] => none
  | l :: ls, c :: cs => if c = l then matchLit ls cs else none

/-- Take a nonempty run of word characters (`[A-Za-z0-9_]+`). -/
def takeIdent (cs : List Char) : Option (String × List Char) :=
  let ident := cs.takeWhile isWordChar
  if ident.isEmpty then none
  else some (String.mk ident, cs.dropWhile isWordChar)

/-- `RE_BILAYER.match t`: returns the two captured identifiers on success. -/
def matchBilayerToken (t : String) : Option (String × String) := do
  let cs ← matchLit "bilayer".toList t.toList
  let cs ← matchLit ['('] (cs.dropWhile isPySpace)
  let cs ← matchLit "inner".toList (cs.dropWhile isPySpace)
  let cs ← matchLit ['='] (cs.dropWhile isPySpace)
  let (inner, cs) ← takeIdent (cs.dropWhile isPySpace)
  let cs ← matchLit [','] (cs.dropWhile isPySpace)
  let cs ← matchLit "outer".toList (cs.dropWhile isPySpace)
  let cs ← matchLit ['='] (cs.dropWhile isPySpace)
  let (outer, cs) ← takeIdent (cs.dropWhile isPySpace)
  let cs ← matchLit [')'] (cs.dropWhile isPySpace)
  if (cs.dropWhile isPySpace).isEmpty then some (inner, outer) else none

/-- Python `stack.split("|")` on a character list (single-character separator;
always returns one more part than there are separators). -/
def splitPipe : List Char → List (List Char)
  | [] => [[]]
  | c :: cs =>
    if c = '|' then [] :: splitPipe cs
    else
      match splitPipe cs with
      | t :: ts => (c :: t) :: ts
      | [] => [[c]]

/-- Python `" | ".join(parts)`-style join with an arbitrary separator. -/
def joinSep (sep : String) : List String → String
  | [] => ""
  | [t] => t
  | t :: ts => t ++ sep ++ joinSep sep ts

/-- The token partition loop of `extract_bilayers_from_model`: matched tokens
become bilayer records (in order), the rest are kept (in order). -/
def splitTokens : List String → List BilayerRaw × List String
  | [] => ([], [])
  | t :: ts =>
    let (bs, ks) := splitTokens ts
    match matchBilayerToken t with
    | some (i, o) => (⟨i, o⟩ :: bs, ks)
    | none => (bs, t :: ks)

/-- `extract_bilayers_from_model`: split the stack on `|`, strip each token,
collect bilayer tokens, and write back the kept tokens joined by `" | "`.
Returns (bilayer records, new stack string). -/
def extract_bilayers (stack : String) : List BilayerRaw × String :=
  let tokens := (splitPipe stack.toList).map fun cs => String.mk (pyStripList cs)
  let (bs, kept) := splitTokens tokens
  (bs, joinSep " | " kept)

example : matchBilayerToken "bilayer(inner=DPPC, outer=POPC)" = some ("DPPC", "POPC") := by rfl
example : matchBilayerToken "bilayer( inner = a_1 ,outer=B2 )  " = some ("a_1", "B2") := by rfl
example : matchBilayerToken "bilayers(inner=a, outer=b)" = none := by rfl
example : matchBilayerToken "bilayer(inner=, outer=b)" = none := by rfl
example :
    extract_bilayers "Si | bilayer(inner=DPPC, outer=DPPC) | D2O" =
      ([⟨"DPPC", "DPPC"⟩], "Si | D2O") := by rfl
example : extract_bilayers "a|b" = ([], "a | b") := by rfl

/-! ## Layer records and `orsopy_extract._extract_layer`

An orsopy layer object is modelled by its observable fields: optional
attributes are `Option`, and external calls that may raise (the
`as_unit("angstrom")` conversions) are `Option (Except String ℚ)` — `none`
for an absent attribute (Python `None`), `some (.error e)` for a raising
conversion.  `safe_get_sld` never raises (it catches internally and falls
back to `0.0`), so the SLD is a plain rational. -/

/-- Normalized layer record (§3 of the spec, as produced by the code). -/
structure Layer where
  name : String
  thickness : ℚ
  sld : ℚ
  roughness : ℚ
deriving DecidableEq, Repr

/-- Observable fields of one resolved orsopy layer object. -/
structure RawLayer where
  original_name : Option String
  material_name : Option String
  formula : String
  thickness : Option (Except String ℚ)
  sld : ℚ
  roughness : Option (Except String ℚ)
deriving Repr, Inhabited

/-- `_extract_layer`: build a layer record; any exception inside the body is
re-raised as `RuntimeError("Malformed layer encountered: ...")`. -/
def extractLayer (li : RawLayer) : Except String Layer := do
  let layer_name :=
    (pyOrStr (pyOrStr li.original_name li.material_name) (some "Layer")).getD "Layer"
  let thickness ←
    match li.thickness with
    | none => Except.ok (0 : ℚ)
    | some (.ok v) => Except.ok v
    | some (.error e) => Except.error ("Malformed layer encountered: " ++ e)
  let rough ←
    match li.roughness with
    | none => Except.ok (3 : ℚ)
    | some (.ok v) => Except.ok v
    | some (.error e) => Except.error ("Malformed layer encountered: " ++ e)
  Except.ok ⟨pyStrip layer_name, thickness, li.sld, rough⟩

/-- The per-contrast collection loop in `process_orso_file`: each layer is
extracted inside `try/except RuntimeError`, and a raising layer is skipped
(logged) while the remaining layers of the contrast are kept. -/
def collectContrastLayers (ls : List RawLayer) : List Layer :=
  ls.filterMap fun li => (extractLayer li).toOption

/-! ## Lipid Constant Resolver (`bilayer_utils.get_lipid_constants`)

`molgroups.lipids` is modelled as an optional lookup table (`none` when
loading the library failed, i.e. `HAS_MOLGROUPS == False`).  A lipid object exposes a
headgroup component list (whose access may raise — modelled as `none`), an
optional direct `headgroup_volume` attribute, and an optional tail group. -/

/-- One headgroup component: `cell_volume` and the (already summed) `nSLs`.
`getattr(c, "cell_volume", 0.0)` / `getattr(c, "nSLs", 0.0)` make missing
attributes behave as `0`, which is folded into the rational fields. -/
structure LipidComponent where
  cell_volume : ℚ
  nSLs : ℚ
deriving Repr

/-- Tail group: `cell_volume` is `getattr(tail, "cell_volume", 0.0) or 0.0`
(`none` models a missing/None attribute, treated as `0`); `nSLs` is the
scalar reduction of the tail nSL data (`scalar_nsl` sums arrays). -/
structure TailGroup where
  cell_volume : Option ℚ
  nSLs : ℚ
deriving Repr

/-- A `molgroups.lipids` lipid object, by its observable fields.
`head_components = none` models `obj.headgroup[1]["components"]` raising. -/
structure Lipid where
  head_components : Option (List LipidComponent)
  headgroup_volume : Option ℚ
  tails : Option TailGroup
deriving Repr

/-- The `molgroups.lipids` module: name lookup plus the `DPPC` fallback. -/
structure LipidTable where
  lookup : String → Option Lipid
  dppc : Lipid

/-- Fully populated constants record returned by the resolver. -/
structure LipidConsts where
  name : String
  head_vol : ℚ
  head_sld : ℚ
  tail_vol : ℚ
  tail_sld : ℚ
deriving DecidableEq, Repr

/-- `scalar_nsl` applied to the list of component nSL values:
`np.array(xs).sum()` — the sum of the entries. -/
def scalar_nsl (xs : List ℚ) : ℚ := xs.sum

/-- Raw headgroup volume sum (the `try` block, `0` when the access raises). -/
def headVolRaw (obj : Lipid) : ℚ :=
  match obj.head_components with
  | some comps => (comps.map LipidComponent.cell_volume).sum
  | none => 0

/-- Summed headgroup nSL (the `try` block, `0` when the access raises). -/
def headNsl (obj : Lipid) : ℚ :=
  match obj.head_components with
  | some comps => scalar_nsl (comps.map LipidComponent.nSLs)
  | none => 0

/-- Raw tail volume (the `try` block, `0` when the access raises or the
attribute is missing/None). -/
def tailVolRaw (obj : Lipid) : ℚ :=
  match obj.tails with
  | some tail => tail.cell_volume.getD 0
  | none => 0

/-- Summed tail nSL (the `try` block, `0` when the access raises). -/
def tailNsl (obj : Lipid) : ℚ :=
  match obj.tails with
  | some tail => tail.nSLs
  | none => 0

/-- Body of `get_lipid_constants` once the lipid object is fixed. -/
def constsOfLipid (lipid_name : String) (obj : Lipid) : LipidConsts :=
  let head_vol0 := headVolRaw obj
  let head_nsl := headNsl obj
  let head_vol1 := if head_vol0 ≤ 0 then obj.headgroup_volume.getD 0 else head_vol0
  let head_vol := if head_vol1 ≤ 0 then 330 else head_vol1
  let head_sld := if head_vol > 0 ∧ head_nsl ≠ 0 then head_nsl * (1 / 100000) / head_vol else 0
  let tail_vol0 := tailVolRaw obj
  let tail_nsl := tailNsl obj
  let tail_vol := if tail_vol0 ≤ 0 then 800 else tail_vol0
  let tail_sld := if tail_vol > 0 ∧ tail_nsl ≠ 0 then tail_nsl * (1 / 100000) / tail_vol else 0
  ⟨lipid_name, head_vol, head_sld, tail_vol, tail_sld⟩

/-- `get_lipid_constants`: `none` when `molgroups` is unavailable
(`HAS_MOLGROUPS == False`); otherwise resolve the name, falling back to the
`DPPC` object for unknown identifiers. -/
def get_lipid_constants (tbl : Option LipidTable) (lipid_name : String) :
    Option LipidConsts :=
  tbl.map fun t => constsOfLipid lipid_name ((t.lookup lipid_name).getD t.dppc)

/-! ## Bilayer Spec Builder (`bilayer_utils.build_bilayer_specs`) -/

/-- The four flattened constants for one leaflet lipid (`_flatten_lipid`). -/
structure FlatLipid where
  v_head : ℚ
  sld_head : ℚ
  v_tail : ℚ
  sld_tail : ℚ
deriving DecidableEq, Repr

/-- `_flatten_lipid`: total fallback when the resolver returned `None`,
otherwise the resolved constants. -/
def flattenLipid : Option LipidConsts → FlatLipid
  | none => ⟨300, 1 / 1000000, 800, 1 / 1000000⟩
  | some c => ⟨c.head_vol, c.head_sld, c.tail_vol, c.tail_sld⟩

/-- Enriched bilayer spec: the token plus eight flattened constants. -/
structure BilayerSpec where
  inner : String
  outer : String
  innerC : FlatLipid
  outerC : FlatLipid
deriving DecidableEq, Repr

/-- One iteration of the `build_bilayer_specs` loop (two resolver calls). -/
def enrichSpec (tbl : Option LipidTable) (spec : BilayerRaw) : BilayerSpec :=
  ⟨spec.inner, spec.outer,
    flattenLipid (get_lipid_constants tbl spec.inner),
    flattenLipid (get_lipid_constants tbl spec.outer)⟩

/-- `build_bilayer_specs`; the second result component instruments the number
of `get_lipid_constants` calls made (two per token).  Empty input returns
before the `HAS_MOLGROUPS` check; non-empty input without the table raises. -/
def build_bilayer_specs (tbl : Option LipidTable) (raw : List BilayerRaw) :
    Except String (List BilayerSpec × Nat) :=
  if raw.isEmpty then Except.ok ([], 0)
  else
    match tbl with
    | none =>
      Except.error
        "Detected bilayer(...) in model stack, but molgroups.lipids is not installed."
    | some t =>
      Except.ok
        (raw.foldl
          (fun acc spec => (acc.1 ++ [enrichSpec (some t) spec], acc.2 + 2))
          ([], 0))

/-! ## Model Emitter (`emit_matlab_model`)

Two views of the generated MATLAB function are embedded:

1. `modelParamReadVars` — the ordered list of `... = params(idx); idx = idx + 1;`
   lines the emitter writes (one variable name per scalar read), mirroring the
   header/unpack sections of `emit_matlab_model`;
2. `modelOutput` / `modelSubRough` — the denotation of the generated function
   body: MATLAB `params` and `bulkOut` are total maps from 1-based indices to
   rationals, and the function returns the `[thickness sld roughness]` rows. -/

/-- The ordered scalar parameter reads emitted by `emit_matlab_model`:
`subRough`, then three per normal layer, then five per bilayer. -/
def modelParamReadVars (layers : List Layer) (bilayers : List BilayerSpec) :
    List String :=
  ["subRough"] ++
    (List.range layers.length).flatMap
      (fun i =>
        ["layer" ++ Nat.repr (i + 1) ++ "Thick",
         "layer" ++ Nat.repr (i + 1) ++ "SLD",
         "layer" ++ Nat.repr (i + 1) ++ "Rough"]) ++
    (List.range bilayers.length).flatMap
      (fun j =>
        ["bilayer" ++ Nat.repr (j + 1) ++ "APM",
         "bilayer" ++ Nat.repr (j + 1) ++ "HeadHydInner",
         "bilayer" ++ Nat.repr (j + 1) ++ "HeadHydOuter",
         "bilayer" ++ Nat.repr (j + 1) ++ "BilayerHydration",
         "bilayer" ++ Nat.repr (j + 1) ++ "Rough"])

/-- One `[thickness SLD roughness]` row of the generated stack. -/
structure MRow where
  thick : ℚ
  sld : ℚ
  rough : ℚ
deriving DecidableEq, Repr

/-- `subRough = params(idx)` with `idx = 1`. -/
def modelSubRough (params : Nat → ℚ) : ℚ := params 1

/-- Rows of the normal (non-bilayer) layers: layer `i` reads
`params(idx), params(idx+1), params(idx+2)` as thickness/SLD/roughness. -/
def layerRowsAux (params : Nat → ℚ) : Nat → Nat → List MRow
  | _, 0 => []
  | idx, n + 1 =>
    ⟨params idx, params (idx + 1), params (idx + 2)⟩ ::
      layerRowsAux params (idx + 3) n

/-- The four-row block `headInner; tailInner; tailOuter; headOuter` generated
for one bilayer whose five fit parameters start at `params(idx)`. -/
def bilayerBlock (params : Nat → ℚ) (bulkOutC : ℚ) (idx : Nat) (bl : BilayerSpec) :
    List MRow :=
  let apm := params idx
  let headHydInner := params (idx + 1)
  let headHydOuter := params (idx + 2)
  let bilayerHydration := params (idx + 3)
  let bilayerRough := params (idx + 4)
  let headInnerThick := bl.innerC.v_head / apm
  let tailInnerThick := bl.innerC.v_tail / apm
  let tailOuterThick := bl.outerC.v_tail / apm
  let headOuterThick := bl.outerC.v_head / apm
  let headInnerSLD := headHydInner * bulkOutC + (1 - headHydInner) * bl.innerC.sld_head
  let headOuterSLD := headHydOuter * bulkOutC + (1 - headHydOuter) * bl.outerC.sld_head
  let tailInnerSLD := bilayerHydration * bulkOutC + (1 - bilayerHydration) * bl.innerC.sld_tail
  let tailOuterSLD := bilayerHydration * bulkOutC + (1 - bilayerHydration) * bl.outerC.sld_tail
  [⟨headInnerThick, headInnerSLD, bilayerRough⟩,
   ⟨tailInnerThick, tailInnerSLD, bilayerRough⟩,
   ⟨tailOuterThick, tailOuterSLD, bilayerRough⟩,
   ⟨headOuterThick, headOuterSLD, bilayerRough⟩]

/-- All bilayer blocks, consuming five parameters each, in spec order. -/
def bilayerBlocksAux (params : Nat → ℚ) (bulkOutC : ℚ) :
    Nat → List BilayerSpec → List MRow
  | _, [] => []
  | idx, bl :: bls =>
    bilayerBlock params bulkOutC idx bl ++
      bilayerBlocksAux params bulkOutC (idx + 5) bls

/-- Denotation of the generated model function: normal layer rows (parameters
from index 2 on, after the substrate roughness) followed by the bilayer
blocks, with hydration mixed against `bulkOut(contrast)`. -/
def modelOutput (layers : List Layer) (bilayers : List BilayerSpec)
    (params : Nat → ℚ) (bulkOut : Nat → ℚ) (contrast : Nat) : List MRow :=
  layerRowsAux params 2 layers.length ++
    bilayerBlocksAux params (bulkOut contrast) (2 + 3 * layers.length) bilayers

/-! ## Driver Emitter (`emit_matlab_driver`)

The generated driver script is embedded as a list of structured lines
(`DLine`), one constructor per `lines.append` site of the source, carrying the
semantically relevant payload (names, exact rational bounds) instead of
formatted text.  Python floats are exact rationals and `round(x, 8)` is
round-half-to-even at 8 decimals.  A raising emission (the `IndexError` from
`bulk_in_names[i-1]`) is an `Except.error`. -/

/-- Bulk record `{name, sld}`. -/
structure Bulk where
  name : String
  sld : ℚ
deriving DecidableEq, Repr

/-- `_span(val, frac)`: `(min, val, max)` bounds for a nominal value, with a
fixed tiny window around zero when `abs(val) < 1e-12`. -/
def _span (val frac : ℚ) : ℚ × ℚ × ℚ :=
  if |val| < 1 / 1000000000000 then (-(1 / 1000000), 0, 1 / 1000000)
  else
    let lo := val * (1 - frac)
    let hi := val * (1 + frac)
    (min lo hi, val, max lo hi)

/-- Round-half-to-even to an integer (Python `round` tie behaviour). -/
def roundHalfEven (q : ℚ) : ℤ :=
  let f := ⌊q⌋
  if q - f < 1 / 2 then f
  else if q - f > 1 / 2 then f + 1
  else if 2 ∣ f then f else f + 1

/-- Python `round(x, 8)` on the idealized exact value. -/
def pyRound8 (q : ℚ) : ℚ := (roundHalfEven (q * 100000000) : ℚ) / 100000000

/-- Structured lines of the generated driver script, one constructor per
`lines.append` site of `emit_matlab_driver`, in emission order. -/
inductive DLine where
  /-- The header block: project creation and the opening of `params = {`. -/
  | header (base_name : String) : DLine
  /-- A comment line inside the parameter group. -/
  | comment (s : String) : DLine
  /-- One bounded fit parameter `{'name', lo, val, hi, fit}` in the group. -/
  | paramDecl (name : String) (lo val hi : ℚ) (fit : Bool) : DLine
  /-- `};` closing the parameter group. -/
  | paramsClose : DLine
  /-- `problem.addParameterGroup(params);`. -/
  | addParamGroup : DLine
  /-- `problem.setScalefactor(1, 'name','Scalefactor 1', ...)`. -/
  | scalefactor (name : String) (val lo hi : ℚ) (fit : Bool) : DLine
  /-- The `% ---------- Bulks ----------` banner. -/
  | bulksBanner : DLine
  /-- `problem.addBulkIn/addBulkOut('name', lo, val, hi, false);`. -/
  | bulkDecl (func name : String) (lo val hi : ℚ) (fit : Bool) : DLine
  /-- Custom model registration plus `readOrso` data loading. -/
  | modelData (fn ort_name : String) (nNames : Nat) : DLine
  /-- The `% ---------- Contrasts ----------` banner. -/
  | contrastsBanner : DLine
  /-- One per-contrast block: background param/declaration, data, and the
  `addContrast` call wiring bulk names (index `i` is 1-based). -/
  | contrastBlock (i : Nat) (safe bulkIn bulkOut : String) : DLine
  /-- The run/controls/export tail of the script. -/
  | runBlock : DLine
deriving DecidableEq, Repr

/-- Whether a driver line is a parameter-group declaration. -/
def DLine.isParamDecl : DLine → Bool
  | DLine.paramDecl _ _ _ _ _ => true
  | _ => false

/-- The three parameter declarations for one internal layer: spans `0.3`
(thickness), `0.2` (SLD), `0.5` (roughness), name whitespace collapsed. -/
def layerParamLines (L : Layer) : List DLine :=
  let name := pyStrip (collapseWs L.name)
  let t := _span L.thickness (3 / 10)
  let s := _span L.sld (1 / 5)
  let r := _span L.roughness (1 / 2)
  [DLine.paramDecl (name ++ " thickness") t.1 t.2.1 t.2.2 true,
   DLine.paramDecl (name ++ " SLD") s.1 s.2.1 s.2.2 true,
   DLine.paramDecl (name ++ " rough") r.1 r.2.1 r.2.2 true]

/-- The comment plus five fixed-bound parameter declarations for bilayer
`j` (1-based): APM 40–80 around 60, hydrations in [0,1], roughness 1–10. -/
def bilayerParamLines (j : Nat) (bl : BilayerSpec) : List DLine :=
  [DLine.comment
      ("Bilayer " ++ Nat.repr j ++ " parameters (inner=" ++ bl.inner ++
        ", outer=" ++ bl.outer ++ ")"),
   DLine.paramDecl ("Bilayer" ++ Nat.repr j ++ " APM") 40 60 80 true,
   DLine.paramDecl ("Bilayer" ++ Nat.repr j ++ " HeadHyd Inner") 0 (1 / 5) 1 true,
   DLine.paramDecl ("Bilayer" ++ Nat.repr j ++ " HeadHyd Outer") 0 (1 / 5) 1 true,
   DLine.paramDecl ("Bilayer" ++ Nat.repr j ++ " BilayerHydration") 0 (1 / 10) 1 true,
   DLine.paramDecl ("Bilayer" ++ Nat.repr j ++ " Rough") 1 4 10 true]

/-- Bilayer parameter sections for all specs, `j` counting from `start`. -/
def bilayerParamSection (start : Nat) : List BilayerSpec → List DLine
  | [] => []
  | bl :: bls => bilayerParamLines start bl ++ bilayerParamSection (start + 1) bls

/-- The full parameter group body: three declarations per internal layer
(in extraction order), then the bilayer sections (`enumerate(..., start=1)`). -/
def driverParamGroupLines (internal_layers : List Layer)
    (bilayer_specs : List BilayerSpec) : List DLine :=
  internal_layers.flatMap layerParamLines ++ bilayerParamSection 1 bilayer_specs

/-- Candidate name tried by the `unique` while-loop at counter `i`. -/
def uCand (base : String) (i : Nat) : String := base ++ "_" ++ Nat.repr i

/-- The `unique(base, used)` while-loop, fueled (the fuel passed by `unique`
is provably sufficient, so the fueled function agrees with the loop). -/
def uniqueLoop (used : List String) (base : String) : String → Nat → Nat → String
  | name, _, 0 => name
  | name, i, fuel + 1 =>
    if name ∈ used then uniqueLoop used base (uCand base i) (i + 1) fuel else name

/-- `unique(base, used)`: first of `base, base_2, base_3, ...` not in `used`. -/
def unique (base : String) (used : List String) : String :=
  uniqueLoop used base base 2 (used.length + 1)

/-- De-duplication state for one bulk side (`used_in/map_in` or
`used_out/map_out`): the set of names already declared and the
`(name, round(sld, 8)) ↦ declared name` dictionary. -/
structure BulkSide where
  used : List String
  mapping : List ((String × ℚ) × String)
deriving Repr

/-- Dictionary lookup in the de-duplication mapping. -/
def lookupKey (m : List ((String × ℚ) × String)) (k : String × ℚ) : Option String :=
  (m.find? fun e => e.1 = k).map fun e => e.2

/-- `ensure_bulk(bulk, used_set, mapping, add_func_name)`: reuse the declared
name when the `(name, round(sld, 8))` key is known, otherwise declare a new
bulk under a `unique` name with span `0.02`.  Returns the updated side state,
the emitted declaration lines (zero or one), and the name to wire. -/
def ensure_bulk (add_func_name : String) (side : BulkSide) (bulk : Bulk) :
    BulkSide × List DLine × String :=
  let key := (bulk.name, pyRound8 bulk.sld)
  match lookupKey side.mapping key with
  | some n => (side, [], n)
  | none =>
    let safe_name := unique bulk.name side.used
    let sp := _span bulk.sld (1 / 50)
    (⟨safe_name :: side.used, (key, safe_name) :: side.mapping⟩,
      [DLine.bulkDecl add_func_name safe_name sp.1 bulk.sld sp.2.2 false],
      safe_name)

/-- The `for bi, bo in zip(bulk_ins, bulk_outs)` loop: threads both side
states, interleaves the emitted declarations, and accumulates the per-contrast
wire names `bulk_in_names` / `bulk_out_names`. -/
def bulkFold :
    List (Bulk × Bulk) → BulkSide → BulkSide →
      BulkSide × BulkSide × List DLine × List String × List String
  | [], si, so => (si, so, [], [], [])
  | (bi, bo) :: rest, si, so =>
    let rin := ensure_bulk "addBulkIn" si bi
    let rout := ensure_bulk "addBulkOut" so bo
    let rrest := bulkFold rest rin.1 rout.1
    (rrest.1, rrest.2.1, rin.2.1 ++ rout.2.1 ++ rrest.2.2.1,
      rin.2.2 :: rrest.2.2.2.1, rout.2.2 :: rrest.2.2.2.2)

/-- The per-contrast emission loop (`enumerate(contrast_names, start=1)` with
`j = i - 1` zero-based): each block reads `bulk_in_names[i-1]` and
`bulk_out_names[i-1]`, raising `IndexError` past the end. -/
def contrastLinesAux (bin bout : List String) : Nat → List String → Except String (List DLine)
  | _, [] => Except.ok []
  | j, cname :: rest =>
    match bin.get? j, bout.get? j with
    | some b1, some b2 =>
      (contrastLinesAux bin bout (j + 1) rest).map
        (fun ls => DLine.contrastBlock (j + 1) (safeContrastName cname) b1 b2 :: ls)
    | _, _ => Except.error "IndexError: list index out of range"

/-- `emit_matlab_driver` as a structured line list.  `layers_all[0]` raises on
an empty list; the internal layers are `layers_all[0][1:-1]`. -/
def emit_matlab_driver (base_name : String) (bulk_ins bulk_outs : List Bulk)
    (layers_all : List (List Layer)) (ort_file : String)
    (contrast_names : List String) (bilayer_specs : List BilayerSpec) :
    Except String (List DLine) := do
  let first ←
    match layers_all with
    | [] => Except.error "IndexError: layers_all[0]"
    | f :: _ => Except.ok f
  let internal_layers := (first.drop 1).dropLast
  let br := bulkFold (bulk_ins.zip bulk_outs) ⟨[], []⟩ ⟨[], []⟩
  let bulkDecls := br.2.2.1
  let bulk_in_names := br.2.2.2.1
  let bulk_out_names := br.2.2.2.2
  let contrastLines ← contrastLinesAux bulk_in_names bulk_out_names 0 contrast_names
  Except.ok
    ([DLine.header base_name] ++
      driverParamGroupLines internal_layers bilayer_specs ++
      [DLine.paramsClose, DLine.addParamGroup,
        DLine.scalefactor "Scalefactor 1" 1 (1 / 2) 2 true,
        DLine.bulksBanner] ++
      bulkDecls ++
      [DLine.modelData (base_name ++ "_auto") ort_file contrast_names.length,
        DLine.contrastsBanner] ++
      contrastLines ++
      [DLine.runBlock])

/-! ## Model Extractor (`orsopy_extract.process_orso_file`)

A dataset is modelled by its observable fields: the optional sample name, and
the optional sample model carrying the raw stack string plus the result of the
external `model.resolve_to_layers()` call (an oracle: `Except.error` when the
external resolution raises).  The extractor loop appends a display name for
*every* dataset, then skips (non-fatally) datasets with no model, failing
resolution, or fewer than two resolved layers; successful datasets append one
entry each to `layers_all`, `bulk_ins`, and `bulk_outs`. -/

/-- A sample model: the stack description and the external resolver outcome. -/
structure SampleModel where
  stack : String
  resolved : Except String (List RawLayer)
deriving Repr

/-- One ORSO dataset, by the fields `process_orso_file` reads. -/
structure Dataset where
  sample_name : Option String
  model : Option SampleModel
deriving Repr

/-- Fixed ordered list of known bulk medium identifiers. -/
def KNOWN_BULKS : List String := ["D2O", "H2O", "AuMW", "SiMW", "SMW", "Si", "Air"]

/-- First known bulk whose lowercase form occurs in the lowercased text. -/
def findKnownBulk (text : String) : Option String :=
  KNOWN_BULKS.find? fun kb => strContains (lowerStr text) (lowerStr kb)

/-- `infer_bulk_name_from_layer`: material name, then original name, then the
formula heuristic, then the caller-supplied fallback. -/
def inferBulkName (l : RawLayer) (fallback : String) : String :=
  let byMat :=
    match l.material_name with
    | some n => if pyStrip n ≠ "" then findKnownBulk n else none
    | none => none
  match byMat with
  | some kb => kb
  | none =>
    let byOrig :=
      match l.original_name with
      | some o => if pyStrip o ≠ "" then findKnownBulk o else none
      | none => none
    match byOrig with
    | some kb => kb
    | none =>
      let f := lowerStr l.formula
      if strContains f "d2o" then "D2O"
      else if strContains f "h2o" then "H2O"
      else fallback

/-- Does the regex `\s*th=.*$` match at this suffix (i.e. optional whitespace,
the literal `th=`, then a newline-free tail with an optional final newline)? -/
def matchThAt (cs : List Char) : Bool :=
  let rest := cs.dropWhile isPySpace
  if "th=".toList.isPrefixOf rest then
    let tail := rest.drop 3
    (tail.filter fun c => c = '\n').length = 0 ||
      ((tail.getLast? = some '\n') && ((tail.dropLast.filter fun c => c = '\n').length = 0))
  else false

/-- `re.sub(r"\s*th=.*$", "", name)`: truncate at the leftmost position where
the pattern matches (the match always extends to the end of the string). -/
def stripThAux : List Char → List Char
  | [] => []
  | c :: cs => if matchThAt (c :: cs) then [] else c :: stripThAux cs

/-- Contrast display-name cleaning: strip trailing `th=...`, strip
whitespace, and escape underscores for MATLAB legends. -/
def contrastLabelOf (name : String) : String :=
  escapeUnderscores (pyStrip (String.mk (stripThAux name.toList)))

/-- Accumulated state of the `process_orso_file` dataset loop. -/
structure ExtractState where
  layers_all : List (List Layer)
  bulk_ins : List Bulk
  bulk_outs : List Bulk
  contrast_names : List String
  bilayer_specs_raw : Option (List BilayerRaw)
deriving Repr

/-- The empty initial loop state. -/
def initExtractState : ExtractState := ⟨[], [], [], [], none⟩

/-- One iteration of the dataset loop (`i` is the 1-based dataset index). -/
def processDataset (st : ExtractState) (i : Nat) (ds : Dataset) : ExtractState :=
  let name := ds.sample_name.getD ("Contrast_" ++ Nat.repr i)
  let st := { st with contrast_names := st.contrast_names ++ [contrastLabelOf name] }
  match ds.model with
  | none => st
  | some m =>
    let bilayers_here := (extract_bilayers m.stack).1
    let st :=
      if ¬ bilayers_here.isEmpty ∧ st.bilayer_specs_raw = none then
        { st with bilayer_specs_raw := some bilayers_here }
      else st
    match m.resolved with
    | Except.error _ => st
    | Except.ok resolved_layers =>
      if resolved_layers.length < 2 then st
      else
        let contrast_layers := collectContrastLayers resolved_layers
        let bulk_in_layer := resolved_layers.headI
        let bulk_out_layer := resolved_layers.getLastD default
        { st with
            layers_all := st.layers_all ++ [contrast_layers]
            bulk_ins := st.bulk_ins ++
              [⟨inferBulkName bulk_in_layer "Substrate", bulk_in_layer.sld⟩]
            bulk_outs := st.bulk_outs ++
              [⟨inferBulkName bulk_out_layer "Air", bulk_out_layer.sld⟩] }

/-- The dataset loop (`enumerate(orso_data, start=1)`). -/
def processLoop : Nat → ExtractState → List Dataset → ExtractState
  | _, st, [] => st
  | i, st, ds :: rest => processLoop (i + 1) (processDataset st i ds) rest

/-- Result bundle of `process_orso_file`. -/
structure Extracted where
  layers_all : List (List Layer)
  bulk_ins : List Bulk
  bulk_outs : List Bulk
  contrast_names : List String
  bilayer_specs : List BilayerSpec
deriving Repr

/-- `process_orso_file`: run the dataset loop, fail fatally when no dataset
yielded layer data, then enrich the（first-contrast）raw bilayer tokens.
`tbl = none` models `HAS_MOLGROUPS == False`. -/
def process_orso_file (tbl : Option LipidTable) (datasets : List Dataset) :
    Except String Extracted :=
  let st := processLoop 1 initExtractState datasets
  if st.layers_all.isEmpty then
    Except.error "No valid models found in the ORSO file."
  else
    match build_bilayer_specs tbl (st.bilayer_specs_raw.getD []) with
    | Except.error e => Except.error e
    | Except.ok specs =>
      Except.ok ⟨st.layers_all, st.bulk_ins, st.bulk_outs, st.contrast_names, specs.1⟩

/-- Non-fatal skip classification: a dataset contributes layer/bulk data iff
it has a model, external resolution succeeds, and at least two layers result. -/
def dsSuccess (d : Dataset) : Bool :=
  match d.model with
  | none => false
  | some m =>
    match m.resolved with
    | Except.error _ => false
    | Except.ok ls => decide (2 ≤ ls.length)

/-- The run-wide raw bilayer token selection made by the loop. -/
def selectBilayerRaw (datasets : List Dataset) : Option (List BilayerRaw) :=
  (processLoop 1 initExtractState datasets).bilayer_specs_raw

/-- The bilayer tokens a single dataset offers to the run-wide selection:
`none` when it has no model or its stack has no bilayer token. -/
def dsBilayers (ds : Dataset) : Option (List BilayerRaw) :=
  ds.model.bind fun m =>
    let b := (extract_bilayers m.stack).1
    if b.isEmpty then none else b

/-! ## Auxiliary observation functions used by the statements -/

/-- Whether a driver line is the scale-factor declaration. -/
def DLine.isScalefactor : DLine → Bool
  | DLine.scalefactor _ _ _ _ _ => true
  | _ => false

/-- Whether a driver line is a bulk declaration for the given add-function. -/
def DLine.isBulkDeclFor (func : String) : DLine → Bool
  | DLine.bulkDecl f _ _ _ _ _ => f = func
  | _ => false

/-- The declared name of a bulk declaration line, if any. -/
def DLine.bulkDeclName : DLine → Option String
  | DLine.bulkDecl _ n _ _ _ _ => some n
  | _ => none

/-- The name of a parameter declaration line, if any. -/
def DLine.paramDeclName : DLine → Option String
  | DLine.paramDecl n _ _ _ _ => some n
  | _ => none

/-- No two adjacent space characters. -/
def noDoubleSpace : List Char → Bool
  | [] => true
  | [_] => true
  | a :: b :: rest => !(a = ' ' && b = ' ') && noDoubleSpace (b :: rest)

/-- Whitespace-collapsed: the only whitespace is single internal spaces. -/
def wsCollapsed (s : String) : Bool :=
  (s.toList.all fun c => !isPySpace c || c = ' ') && noDoubleSpace s.toList

/-- All characters are ASCII. -/
def allAscii (s : String) : Bool :=
  s.toList.all fun c => c.toNat < 128

/-- De-duplication key of a bulk record: `(name, round(sld, 8))`. -/
def bulkKey (b : Bulk) : String × ℚ := (b.name, pyRound8 b.sld)

/-- One bulk side of the zipped de-duplication loop, processed alone (the two
sides of `bulkFold` thread disjoint states, so each projects onto this). -/
def sideFold (func : String) : BulkSide → List Bulk → BulkSide × List DLine × List String
  | side, [] => (side, [], [])
  | side, b :: bs =>
    let r := ensure_bulk func side b
    let rr := sideFold func r.1 bs
    (rr.1, r.2.1 ++ rr.2.1, r.2.2 :: rr.2.2)

/-- Invariant of a de-duplication side state: every declared name recorded in
the mapping is in the used set, and no two keys share a declared name. -/
def SideInv (side : BulkSide) : Prop :=
  (∀ kv ∈ side.mapping, kv.2 ∈ side.used) ∧
    (side.mapping.map fun kv => kv.2).Nodup

/-! ## Concrete fixtures used by counterexamples and witnesses -/

/-- A well-formed resolved layer (substrate-like). -/
def rawSi : RawLayer :=
  ⟨some "Si", some "Si", "Si", some (Except.ok 0), 2, some (Except.ok 3)⟩

/-- A malformed resolved layer: its thickness unit conversion raises. -/
def rawBad : RawLayer :=
  ⟨some "SiO2", some "SiO2", "SiO2", some (Except.error "missing unit"), 3, some (Except.ok 3)⟩

/-- A well-formed resolved layer (heavy-water-like). -/
def rawD2O : RawLayer :=
  ⟨some "D2O", some "D2O", "D2O", some (Except.ok 0), 6, some (Except.ok 3)⟩

/-- Dataset whose single contrast resolves to good/malformed/good layers. -/
def dsC3 : Dataset :=
  ⟨some "c1", some ⟨"Si | SiO2 | D2O", Except.ok [rawSi, rawBad, rawD2O]⟩⟩

/-- A DPPC-like reference lipid: two headgroup components, a tail group. -/
def dppcFix : Lipid :=
  ⟨some [⟨100, 20⟩, ⟨230, 40⟩], some 0, some ⟨some 800, -40⟩⟩

/-- A property table that knows no identifiers (everything falls back). -/
def tblFix : LipidTable := ⟨fun _ => none, dppcFix⟩

/-- A concrete enriched bilayer spec (flat fields are
`v_head, sld_head, v_tail, sld_tail`). -/
def blW : BilayerSpec := ⟨"DPPC", "POPC", ⟨320, 11, 850, 12⟩, ⟨330, 13, 860, 14⟩⟩

/-- A symmetric concrete enriched bilayer spec. -/
def blW2 : BilayerSpec := ⟨"DPPC", "DPPC", ⟨320, 11, 850, 12⟩, ⟨320, 11, 850, 12⟩⟩

/-- A concrete parameter vector: index 3 ↦ 0, index 4 ↦ 1, otherwise `n`. -/
def paramsW : Nat → ℚ := fun n => if n = 3 then 0 else if n = 4 then 1 else (n : ℚ)

/-- A concrete bulk-out SLD vector (constant). -/
def bulkOutW : Nat → ℚ := fun _ => 9

/-- A one-record bulk list. -/
def binsC1 : List Bulk := [⟨"D2O", 6⟩]

/-- One contrast of three resolved layers (bulk, one internal layer, bulk). -/
def layersAllC1 : List (List Layer) :=
  [[⟨"Si", 0, 2, 3⟩, ⟨"SiO2", 12, 3, 3⟩, ⟨"D2O", 0, 6, 3⟩]]

/-- Dataset whose stack contains a bilayer token (first in the run). -/
def dsB1 : Dataset :=
  ⟨some "c1", some ⟨"Si | bilayer(inner=DPPC, outer=POPC) | D2O",
    Except.ok [rawSi, rawD2O]⟩⟩

/-- A later dataset carrying a *different* bilayer token. -/
def dsB2 : Dataset :=
  ⟨some "c2", some ⟨"Si | bilayer(inner=DMPC, outer=DMPC) | D2O",
    Except.ok [rawSi, rawD2O]⟩⟩

/-- A dataset skipped non-fatally (it has no model). -/
def dsSkip : Dataset := ⟨some "c2", none⟩

/-- The spec's bulk de-duplication example: same name twice with one SLD,
then the same name with a different SLD. -/
def binsC7 : List Bulk :=
  [⟨"D2O", 6 / 1000000⟩, ⟨"D2O", 6 / 1000000⟩, ⟨"D2O", 61 / 10000000⟩]

/-- Bulk-out records paired with `binsC7` (all identical). -/
def outsC7 : List Bulk := [⟨"Si", 2⟩, ⟨"Si", 2⟩, ⟨"Si", 2⟩]

/-- One contrast whose internal layer carries a non-ASCII, double-spaced
name. -/
def layersAllC9 : List (List Layer) :=
  [[⟨"Si", 0, 2, 3⟩, ⟨"Göld  x", 12, 3, 3⟩, ⟨"D2O", 0, 6, 3⟩]]

/-! # Theorems

First general-purpose lemmas (decimal representation, loop characterizations),
then one theorem per claim with its witness or counterexample. -/

/-! ## Injectivity of the decimal representation

Needed because `unique` disambiguates colliding bulk names with numeric
suffixes: distinct counters must give distinct candidate names. -/

theorem toDigitsCore_eq_digits (fuel : Nat) :
    ∀ (n : Nat) (acc : List Char), n ≠ 0 → n < fuel →
      Nat.toDigitsCore 10 fuel n acc =
        ((Nat.digits 10 n).map Nat.digitChar).reverse ++ acc := by
  induction fuel with
  | zero => intro n acc hn hf; omega
  | succ fuel ih =>
    intro n acc hn hf
    rw [Nat.toDigitsCore]
    by_cases h0 : n / 10 = 0
    · simp only [h0, if_pos rfl]
      rw [Nat.digits_eq_cons_digits_div (by norm_num) hn, h0]
      simp
    · simp only [if_neg h0]
      have hlt : n / 10 < fuel := by
        have := Nat.div_lt_self (Nat.pos_of_ne_zero hn) (by norm_num : 1 < 10)
        omega
      rw [ih (n / 10) _ h0 hlt]
      rw [Nat.digits_eq_cons_digits_div (by norm_num) hn]
      simp

theorem repr_eq_digits (n : Nat) (hn : n ≠ 0) :
    Nat.repr n = (((Nat.digits 10 n).map Nat.digitChar).reverse).asString := by
  show (Nat.toDigits 10 n).asString = _
  rw [Nat.toDigits, toDigitsCore_eq_digits (n + 1) n [] hn (by omega), List.append_nil]

theorem digitChar_inj10 (a b : Nat) (ha : a < 10) (hb : b < 10)
    (h : Nat.digitChar a = Nat.digitChar b) : a = b := by
  have key : ∀ x : Fin 10, ∀ y : Fin 10,
      Nat.digitChar x.val = Nat.digitChar y.val → x.val = y.val := by decide
  exact key ⟨a, ha⟩ ⟨b, hb⟩ h

theorem map_digitChar_inj :
    ∀ l1 l2 : List Nat, (∀ x ∈ l1, x < 10) → (∀ x ∈ l2, x < 10) →
      l1.map Nat.digitChar = l2.map Nat.digitChar → l1 = l2 := by
  intro l1
  induction l1 with
  | nil => intro l2 _ _ h; cases l2 <;> simp_all
  | cons a l ih =>
    intro l2 h1 h2 h
    cases l2 with
    | nil => simp at h
    | cons b l2' =>
      simp only [List.map_cons, List.cons.injEq] at h
      have hab := digitChar_inj10 a b (h1 a (by simp)) (h2 b (by simp)) h.1
      have := ih l2' (fun x hx => h1 x (by simp [hx])) (fun x hx => h2 x (by simp [hx])) h.2
      simp [hab, this]

theorem repr_ne_zero_case (n : Nat) (hn : n ≠ 0) (h : Nat.repr n = Nat.repr 0) :
    False := by
  rw [repr_eq_digits n hn] at h
  have h0 : Nat.repr 0 = List.asString ['0'] := rfl
  rw [h0, List.asString_inj] at h
  have hmap : (Nat.digits 10 n).map Nat.digitChar = ['0'] := by
    have := congrArg List.reverse h
    simpa using this
  have hdig : Nat.digits 10 n = [0] :=
    map_digitChar_inj _ [0]
      (fun x hx => Nat.digits_lt_base (by norm_num) hx)
      (by simp) (by simpa using hmap)
  have hz : n = Nat.ofDigits 10 (Nat.digits 10 n) := (Nat.ofDigits_digits 10 n).symm
  rw [hdig] at hz
  simp [Nat.ofDigits] at hz
  exact hn hz

theorem natRepr_injective : Function.Injective Nat.repr := by
  intro m n h
  rcases eq_or_ne m 0 with rfl | hm
  · rcases eq_or_ne n 0 with rfl | hn
    · rfl
    · exact absurd h.symm fun hc => repr_ne_zero_case n hn hc
  · rcases eq_or_ne n 0 with rfl | hn
    · exact absurd h fun hc => repr_ne_zero_case m hm hc
    · rw [repr_eq_digits m hm, repr_eq_digits n hn, List.asString_inj] at h
      have h2 := List.reverse_injective h
      have h3 := map_digitChar_inj _ _
        (fun x hx => Nat.digits_lt_base (by norm_num) hx)
        (fun x hx => Nat.digits_lt_base (by norm_num) hx) h2
      exact Nat.digits_inj_iff.mp h3

/-! ## C2 — Stack-token extraction -/

theorem splitTokens_eq (ts : List String) :
    splitTokens ts =
      (ts.filterMap fun t => (matchBilayerToken t).map fun p => (⟨p.1, p.2⟩ : BilayerRaw),
        ts.filter fun t => (matchBilayerToken t).isNone) := by
  induction ts with
  | nil => rfl
  | cons t ts ih =>
    simp only [splitTokens, ih]
    cases h : matchBilayerToken t <;> simp [h]

/-- C2 (counterexample): the claim says a stack without any bilayer token is
left unchanged, but the code strips each token and rejoins with `" | "`:
the stack `"a|b"` has no bilayer token yet is rewritten to `"a | b"`. -/
theorem C2_counterexample :
    (extract_bilayers "a|b").1 = [] ∧
      (extract_bilayers "a|b").2 = "a | b" ∧ (extract_bilayers "a|b").2 ≠ "a|b" := by
  refine ⟨rfl, rfl, ?_⟩
  decide

/-- C2 (amended): splitting the stack on `|` and stripping each token,
extraction returns exactly the tokens matching the bilayer pattern as
`{inner, outer}` records in original order, and writes back the non-matching
tokens — whitespace-stripped — rejoined with `" | "` in their original
relative order; in particular, when no token matches, the returned list is
empty and the new stack is the stripped rejoin of all tokens (which equals
the original string only if it was already in that normalized form). -/
theorem C2_extract_bilayers_round_trip (stack : String) :
    (extract_bilayers stack).1 =
      (((splitPipe stack.toList).map fun cs => String.mk (pyStripList cs)).filterMap
        fun t => (matchBilayerToken t).map fun p => (⟨p.1, p.2⟩ : BilayerRaw)) ∧
    (extract_bilayers stack).2 =
      joinSep " | "
        (((splitPipe stack.toList).map fun cs => String.mk (pyStripList cs)).filter
          fun t => (matchBilayerToken t).isNone) ∧
    ((∀ t ∈ (splitPipe stack.toList).map fun cs => String.mk (pyStripList cs),
        matchBilayerToken t = none) →
      (extract_bilayers stack).1 = [] ∧
        (extract_bilayers stack).2 =
          joinSep " | " ((splitPipe stack.toList).map fun cs => String.mk (pyStripList cs))) := by
  have hmain :
      extract_bilayers stack =
        ((((splitPipe stack.toList).map fun cs => String.mk (pyStripList cs)).filterMap
            fun t => (matchBilayerToken t).map fun p => (⟨p.1, p.2⟩ : BilayerRaw)),
          joinSep " | "
            (((splitPipe stack.toList).map fun cs => String.mk (pyStripList cs)).filter
              fun t => (matchBilayerToken t).isNone)) := by
    simp only [extract_bilayers, splitTokens_eq]
  refine ⟨by rw [hmain], by rw [hmain], fun hall => ⟨?_, ?_⟩⟩
  · rw [hmain]
    simp only [List.filterMap_eq_nil_iff]
    intro t ht
    rw [hall t ht]
    rfl
  · rw [hmain]
    dsimp only
    congr 1
    apply List.filter_eq_self.mpr
    intro t ht
    rw [hall t ht]
    rfl

/-- C2 (witness for the amended theorem): concrete evaluation on the stack
`"Si | SiO2"`, which has no bilayer token. -/
theorem C2_witness :
    (∀ t ∈ (splitPipe "Si | SiO2".toList).map fun cs => String.mk (pyStripList cs),
        matchBilayerToken t = none) ∧
      (extract_bilayers "Si | SiO2").1 = [] ∧ (extract_bilayers "Si | SiO2").2 = "Si | SiO2" := by
  have h := (C2_extract_bilayers_round_trip "Si | SiO2").2.2 (by decide)
  exact ⟨by decide, h.1, by rw [h.2]; rfl⟩

/-! ## C3 — Malformed layer handling inside a contrast -/

/-- C3 (counterexample): the claim says a layer whose normalization raises is
fatal for its contrast, which then contributes no layer data.  On a contrast
resolving to `[good, malformed, good]` the code instead catches the error,
drops only the malformed layer, and the contrast still contributes the two
good layers (and its bulks) to the run. -/
theorem C3_counterexample :
    extractLayer rawBad = Except.error "Malformed layer encountered: missing unit" ∧
      collectContrastLayers [rawSi, rawBad, rawD2O] =
        [⟨"Si", 0, 2, 3⟩, ⟨"D2O", 0, 6, 3⟩] ∧
      process_orso_file none [dsC3] =
        Except.ok
          ⟨[[⟨"Si", 0, 2, 3⟩, ⟨"D2O", 0, 6, 3⟩]], [⟨"Si", 2⟩], [⟨"D2O", 6⟩], ["c1"], []⟩ := by
  exact ⟨rfl, rfl, rfl⟩

/-- C3 (amended): a layer whose normalization raises is *not* fatal for the
contrast being processed: the collection loop catches the error, skips just
that layer, and keeps all remaining layers of the contrast in order. -/
theorem C3_malformed_layer_skipped (pre post : List RawLayer) (bad : RawLayer)
    (hbad : (extractLayer bad).isOk = false) :
    collectContrastLayers (pre ++ bad :: post) =
      collectContrastLayers pre ++ collectContrastLayers post := by
  unfold collectContrastLayers
  rw [List.filterMap_append]
  congr 1
  rw [List.filterMap_cons]
  cases h : extractLayer bad with
  | ok v => rw [h] at hbad; simp [Except.isOk, Except.toBool] at hbad
  | error e => simp [h, Except.toOption]

/-- C3 (witness): the amended theorem applied to the concrete malformed
contrast `[rawSi, rawBad, rawD2O]`. -/
theorem C3_witness :
    (extractLayer rawBad).isOk = false ∧
      collectContrastLayers ([rawSi] ++ rawBad :: [rawD2O]) =
        collectContrastLayers [rawSi] ++ collectContrastLayers [rawD2O] :=
  ⟨rfl, C3_malformed_layer_skipped [rawSi] [rawD2O] rawBad rfl⟩

/-! ## C4 — Bilayer spec builder error/enrichment behaviour -/

theorem buildFoldl_eq (t : LipidTable) :
    ∀ (raw : List BilayerRaw) (acc : List BilayerSpec) (n : Nat),
      raw.foldl (fun acc spec => (acc.1 ++ [enrichSpec (some t) spec], acc.2 + 2)) (acc, n) =
        (acc ++ raw.map (enrichSpec (some t)), n + 2 * raw.length) := by
  intro raw
  induction raw with
  | nil => simp
  | cons s rest ih =>
    intro acc n
    simp only [List.foldl_cons, ih, List.map_cons]
    refine Prod.ext ?_ ?_
    · simp
    · simp; omega

/-- C4: `build_bilayer_specs` on an empty (or absent, which the caller folds
to empty) token list returns an empty list having made zero resolver calls —
even when the property table is absent; on a non-empty list with the table
unavailable it raises the designated error instead of substituting fallbacks;
and with the table present it returns exactly one enriched spec per token, in
input order (two resolver calls per token). -/
theorem C4_build_bilayer_specs (tbl : Option LipidTable) (raw : List BilayerRaw)
    (t : LipidTable) :
    build_bilayer_specs tbl [] = Except.ok ([], 0) ∧
      (raw ≠ [] →
        build_bilayer_specs none raw =
          Except.error
            "Detected bilayer(...) in model stack, but molgroups.lipids is not installed.") ∧
      build_bilayer_specs (some t) raw =
        Except.ok (raw.map (enrichSpec (some t)), 2 * raw.length) := by
  refine ⟨rfl, fun h => ?_, ?_⟩
  · unfold build_bilayer_specs
    rw [if_neg]
    simpa using h
  · cases raw with
    | nil => rfl
    | cons s rest =>
      unfold build_bilayer_specs
      rw [if_neg (by simp)]
      simp only [buildFoldl_eq t (s :: rest) ([] : List BilayerSpec) 0]
      simp

/-- C4 (witness): one token, absent table raises; present table enriches. -/
theorem C4_witness :
    ([⟨"DPPC", "POPC"⟩] : List BilayerRaw) ≠ [] ∧
      build_bilayer_specs none [⟨"DPPC", "POPC"⟩] =
        Except.error
          "Detected bilayer(...) in model stack, but molgroups.lipids is not installed." ∧
      build_bilayer_specs (some tblFix) [⟨"DPPC", "POPC"⟩] =
        Except.ok ([enrichSpec (some tblFix) ⟨"DPPC", "POPC"⟩], 2) := by
  have h := C4_build_bilayer_specs none [⟨"DPPC", "POPC"⟩] tblFix
  have h2 := C4_build_bilayer_specs (some tblFix) [⟨"DPPC", "POPC"⟩] tblFix
  exact ⟨by decide, h.2.1 (by decide), h2.2.2⟩

/-! ## C5 — Lipid constant resolver fallback chain -/

theorem constsOfLipid_head_vol (lipid_name : String) (obj : Lipid) :
    (constsOfLipid lipid_name obj).head_vol =
      if (if headVolRaw obj ≤ 0 then obj.headgroup_volume.getD 0 else headVolRaw obj) ≤ 0
      then 330
      else if headVolRaw obj ≤ 0 then obj.headgroup_volume.getD 0 else headVolRaw obj := rfl

theorem constsOfLipid_head_sld (lipid_name : String) (obj : Lipid) :
    (constsOfLipid lipid_name obj).head_sld =
      if 0 < (constsOfLipid lipid_name obj).head_vol ∧ headNsl obj ≠ 0
      then headNsl obj * (1 / 100000) / (constsOfLipid lipid_name obj).head_vol
      else 0 := rfl

theorem constsOfLipid_tail_vol (lipid_name : String) (obj : Lipid) :
    (constsOfLipid lipid_name obj).tail_vol =
      if tailVolRaw obj ≤ 0 then 800 else tailVolRaw obj := rfl

theorem constsOfLipid_tail_sld (lipid_name : String) (obj : Lipid) :
    (constsOfLipid lipid_name obj).tail_sld =
      if 0 < (constsOfLipid lipid_name obj).tail_vol ∧ tailNsl obj ≠ 0
      then tailNsl obj * (1 / 100000) / (constsOfLipid lipid_name obj).tail_vol
      else 0 := rfl

theorem constsOfLipid_head_vol_pos (lipid_name : String) (obj : Lipid) :
    0 < (constsOfLipid lipid_name obj).head_vol := by
  rw [constsOfLipid_head_vol]
  split_ifs <;> first | exact not_le.mp (by assumption) | norm_num

theorem constsOfLipid_tail_vol_pos (lipid_name : String) (obj : Lipid) :
    0 < (constsOfLipid lipid_name obj).tail_vol := by
  rw [constsOfLipid_tail_vol]
  split_ifs <;> first | exact not_le.mp (by assumption) | norm_num

/-- C5: with the property table present the resolver always returns a fully
populated record: an unknown identifier resolves through the DPPC reference
object; the head volume falls back from the summed component cell volumes to
the direct headgroup-volume attribute to 330; the tail volume falls back to
800 when not positive; both returned volumes are strictly positive; and each
SLD equals `nSL × 1e-5 / volume` when the (always nonzero) volume and the
summed nSL are both nonzero, else exactly `0`. -/
theorem C5_lipid_constant_fallbacks (t : LipidTable) (lipid_name : String) :
    (t.lookup lipid_name = none →
      get_lipid_constants (some t) lipid_name = some (constsOfLipid lipid_name t.dppc)) ∧
    ∀ c, get_lipid_constants (some t) lipid_name = some c →
      (0 < c.head_vol ∧ 0 < c.tail_vol) ∧
      c.head_vol =
        (if 0 < headVolRaw ((t.lookup lipid_name).getD t.dppc) then
          headVolRaw ((t.lookup lipid_name).getD t.dppc)
        else if 0 < ((t.lookup lipid_name).getD t.dppc).headgroup_volume.getD 0 then
          ((t.lookup lipid_name).getD t.dppc).headgroup_volume.getD 0
        else 330) ∧
      c.tail_vol =
        (if 0 < tailVolRaw ((t.lookup lipid_name).getD t.dppc) then
          tailVolRaw ((t.lookup lipid_name).getD t.dppc)
        else 800) ∧
      (c.head_vol ≠ 0 ∧ headNsl ((t.lookup lipid_name).getD t.dppc) ≠ 0 →
        c.head_sld =
          headNsl ((t.lookup lipid_name).getD t.dppc) * (1 / 100000) / c.head_vol) ∧
      (headNsl ((t.lookup lipid_name).getD t.dppc) = 0 → c.head_sld = 0) ∧
      (c.tail_vol ≠ 0 ∧ tailNsl ((t.lookup lipid_name).getD t.dppc) ≠ 0 →
        c.tail_sld =
          tailNsl ((t.lookup lipid_name).getD t.dppc) * (1 / 100000) / c.tail_vol) ∧
      (tailNsl ((t.lookup lipid_name).getD t.dppc) = 0 → c.tail_sld = 0) := by
  constructor
  · intro h
    simp [get_lipid_constants, h]
  · intro c hc
    have hco : constsOfLipid lipid_name ((t.lookup lipid_name).getD t.dppc) = c := by
      simpa [get_lipid_constants] using hc
    subst hco
    set obj := (t.lookup lipid_name).getD t.dppc with hobj
    refine ⟨⟨constsOfLipid_head_vol_pos _ _, constsOfLipid_tail_vol_pos _ _⟩, ?_, ?_, ?_, ?_, ?_, ?_⟩
    · rw [constsOfLipid_head_vol]
      split_ifs with h1 h2 h3 h4 h5 <;> linarith
    · rw [constsOfLipid_tail_vol]
      split_ifs with h1 h2 <;> linarith
    · intro hcond
      rw [constsOfLipid_head_sld]
      rw [if_pos ⟨constsOfLipid_head_vol_pos _ _, hcond.2⟩]
    · intro h0
      rw [constsOfLipid_head_sld]
      rw [if_neg]
      simp [h0]
    · intro hcond
      rw [constsOfLipid_tail_sld]
      rw [if_pos ⟨constsOfLipid_tail_vol_pos _ _, hcond.2⟩]
    · intro h0
      rw [constsOfLipid_tail_sld]
      rw [if_neg]
      simp [h0]

/-- C5 (witness): the all-fallback table at the unknown name `"XXX"`. -/
theorem C5_witness :
    tblFix.lookup "XXX" = none ∧
      get_lipid_constants (some tblFix) "XXX" = some (constsOfLipid "XXX" tblFix.dppc) ∧
      ∀ c, get_lipid_constants (some tblFix) "XXX" = some c → 0 < c.head_vol ∧ 0 < c.tail_vol := by
  have h := C5_lipid_constant_fallbacks tblFix "XXX"
  exact ⟨rfl, h.1 rfl, fun c hc => (h.2 c hc).1⟩

/-! ## C6 — Bilayer expansion and hydration mixing in the model function -/

theorem layerRowsAux_length (p : Nat → ℚ) :
    ∀ (n idx : Nat), (layerRowsAux p idx n).length = n := by
  intro n
  induction n with
  | zero => intro idx; rfl
  | succ n ih => intro idx; simp [layerRowsAux, ih]

theorem bilayerBlock_length (p : Nat → ℚ) (c : ℚ) (idx : Nat) (bl : BilayerSpec) :
    (bilayerBlock p c idx bl).length = 4 := rfl

theorem bilayerBlocksAux_length (p : Nat → ℚ) (c : ℚ) :
    ∀ (bls : List BilayerSpec) (idx : Nat),
      (bilayerBlocksAux p c idx bls).length = 4 * bls.length := by
  intro bls
  induction bls with
  | nil => intro idx; rfl
  | cons b rest ih =>
    intro idx
    simp only [bilayerBlocksAux, List.length_append, bilayerBlock_length, ih]
    simp [List.length_cons]
    ring

theorem bilayerBlocksAux_drop_take (p : Nat → ℚ) (c : ℚ) :
    ∀ (bls : List BilayerSpec) (j idx : Nat) (bl : BilayerSpec), bls[j]? = some bl →
      ((bilayerBlocksAux p c idx bls).drop (4 * j)).take 4 = bilayerBlock p c (idx + 5 * j) bl := by
  intro bls
  induction bls with
  | nil => intro j idx bl h; simp at h
  | cons b rest ih =>
    intro j idx bl h
    cases j with
    | zero =>
      simp only [List.getElem?_cons_zero, Option.some.injEq] at h
      subst h
      simp [bilayerBlocksAux, bilayerBlock]
    | succ j =>
      simp only [List.getElem?_cons_succ] at h
      have h4 : 4 * (j + 1) = (bilayerBlock p c idx b).length + 4 * j := by
        rw [bilayerBlock_length]; ring
      rw [bilayerBlocksAux, h4, List.drop_append, ih j (idx + 5) bl h]
      congr 1
      ring

/-- C6: in the generated stack-evaluation function, bilayer `j` (0-based, with
`L` internal layers before it) occupies exactly rows `L+4j .. L+4j+3` of the
output, in the order inner head / inner tail / outer tail / outer head; each
row's thickness is the corresponding leaflet volume divided by the bilayer's
APM parameter `params(base)` (`base = 2 + 3L + 5j`), all four rows share the
single roughness parameter `params(base+4)`, each row's SLD is the linear mix
`h·bulkOut(contrast) + (1−h)·intrinsic`, and at hydration `0` the SLD is
exactly the intrinsic SLD while at `1` it is exactly `bulkOut(contrast)`. -/
theorem C6_bilayer_expansion (layers : List Layer) (bilayers : List BilayerSpec)
    (params : Nat → ℚ) (bulkOut : Nat → ℚ) (contrast : Nat)
    (j : Nat) (bl : BilayerSpec) (hj : bilayers[j]? = some bl) :
    (modelOutput layers bilayers params bulkOut contrast).length =
        layers.length + 4 * bilayers.length ∧
    ((modelOutput layers bilayers params bulkOut contrast).drop
          (layers.length + 4 * j)).take 4 =
        bilayerBlock params (bulkOut contrast) (2 + 3 * layers.length + 5 * j) bl ∧
    (((modelOutput layers bilayers params bulkOut contrast).drop
          (layers.length + 4 * j)).take 4).map MRow.thick =
        [bl.innerC.v_head / params (2 + 3 * layers.length + 5 * j),
          bl.innerC.v_tail / params (2 + 3 * layers.length + 5 * j),
          bl.outerC.v_tail / params (2 + 3 * layers.length + 5 * j),
          bl.outerC.v_head / params (2 + 3 * layers.length + 5 * j)] ∧
    (∀ r ∈ ((modelOutput layers bilayers params bulkOut contrast).drop
          (layers.length + 4 * j)).take 4,
        r.rough = params (2 + 3 * layers.length + 5 * j + 4)) ∧
    (((modelOutput layers bilayers params bulkOut contrast).drop
          (layers.length + 4 * j)).take 4).map MRow.sld =
        [params (2 + 3 * layers.length + 5 * j + 1) * bulkOut contrast +
            (1 - params (2 + 3 * layers.length + 5 * j + 1)) * bl.innerC.sld_head,
          params (2 + 3 * layers.length + 5 * j + 3) * bulkOut contrast +
            (1 - params (2 + 3 * layers.length + 5 * j + 3)) * bl.innerC.sld_tail,
          params (2 + 3 * layers.length + 5 * j + 3) * bulkOut contrast +
            (1 - params (2 + 3 * layers.length + 5 * j + 3)) * bl.outerC.sld_tail,
          params (2 + 3 * layers.length + 5 * j + 2) * bulkOut contrast +
            (1 - params (2 + 3 * layers.length + 5 * j + 2)) * bl.outerC.sld_head] ∧
    (params (2 + 3 * layers.length + 5 * j + 1) = 0 →
      ((((modelOutput layers bilayers params bulkOut contrast).drop
            (layers.length + 4 * j)).take 4).map MRow.sld)[0]? =
        some bl.innerC.sld_head) ∧
    (params (2 + 3 * layers.length + 5 * j + 1) = 1 →
      ((((modelOutput layers bilayers params bulkOut contrast).drop
            (layers.length + 4 * j)).take 4).map MRow.sld)[0]? =
        some (bulkOut contrast)) ∧
    (params (2 + 3 * layers.length + 5 * j + 3) = 0 →
      (((((modelOutput layers bilayers params bulkOut contrast).drop
            (layers.length + 4 * j)).take 4).map MRow.sld)[1]? =
          some bl.innerC.sld_tail ∧
        ((((modelOutput layers bilayers params bulkOut contrast).drop
            (layers.length + 4 * j)).take 4).map MRow.sld)[2]? =
          some bl.outerC.sld_tail)) ∧
    (params (2 + 3 * layers.length + 5 * j + 3) = 1 →
      (((((modelOutput layers bilayers params bulkOut contrast).drop
            (layers.length + 4 * j)).take 4).map MRow.sld)[1]? =
          some (bulkOut contrast) ∧
        ((((modelOutput layers bilayers params bulkOut contrast).drop
            (layers.length + 4 * j)).take 4).map MRow.sld)[2]? =
          some (bulkOut contrast))) ∧
    (params (2 + 3 * layers.length + 5 * j + 2) = 0 →
      ((((modelOutput layers bilayers params bulkOut contrast).drop
            (layers.length + 4 * j)).take 4).map MRow.sld)[3]? =
        some bl.outerC.sld_head) ∧
    (params (2 + 3 * layers.length + 5 * j + 2) = 1 →
      ((((modelOutput layers bilayers params bulkOut contrast).drop
            (layers.length + 4 * j)).take 4).map MRow.sld)[3]? =
        some (bulkOut contrast)) := by
  have hquad :
      ((modelOutput layers bilayers params bulkOut contrast).drop
          (layers.length + 4 * j)).take 4 =
        bilayerBlock params (bulkOut contrast) (2 + 3 * layers.length + 5 * j) bl := by
    unfold modelOutput
    rw [show layers.length + 4 * j = (layerRowsAux params 2 layers.length).length + 4 * j from by
      rw [layerRowsAux_length]]
    rw [List.drop_append]
    exact bilayerBlocksAux_drop_take params (bulkOut contrast) bilayers j
      (2 + 3 * layers.length) bl hj
  refine ⟨?_, hquad, ?_, ?_, ?_, ?_, ?_, ?_, ?_, ?_, ?_⟩
  · unfold modelOutput
    rw [List.length_append, layerRowsAux_length, bilayerBlocksAux_length]
  · rw [hquad]; rfl
  · rw [hquad]
    intro r hr
    simp only [bilayerBlock, List.mem_cons, List.not_mem_nil, or_false] at hr
    rcases hr with rfl | rfl | rfl | rfl <;> rfl
  · rw [hquad]; rfl
  · intro h0; rw [hquad]; simp [bilayerBlock, h0]
  · intro h1; rw [hquad]; simp [bilayerBlock, h1]
  · intro h0; rw [hquad]; constructor <;> simp [bilayerBlock, h0]
  · intro h1; rw [hquad]; constructor <;> simp [bilayerBlock, h1]
  · intro h0; rw [hquad]; simp [bilayerBlock, h0]
  · intro h1; rw [hquad]; simp [bilayerBlock, h1]

/-- C6 (witness): one bilayer, no internal layers, inner head hydration `0`
(parameter index 3) and outer head hydration `1` (parameter index 4). -/
theorem C6_witness :
    ([blW] : List BilayerSpec)[0]? = some blW ∧
      (modelOutput [] [blW] paramsW bulkOutW 0).length =
        ([] : List Layer).length + 4 * [blW].length ∧
      (paramsW (2 + 3 * ([] : List Layer).length + 5 * 0 + 1) = 0 ∧
        ((((modelOutput [] [blW] paramsW bulkOutW 0).drop
              (([] : List Layer).length + 4 * 0)).take 4).map MRow.sld)[0]? =
          some blW.innerC.sld_head) ∧
      (paramsW (2 + 3 * ([] : List Layer).length + 5 * 0 + 2) = 1 ∧
        ((((modelOutput [] [blW] paramsW bulkOutW 0).drop
              (([] : List Layer).length + 4 * 0)).take 4).map MRow.sld)[3]? =
          some (bulkOutW 0)) := by
  have h := C6_bilayer_expansion [] [blW] paramsW bulkOutW 0 0 blW rfl
  exact ⟨rfl, h.1, ⟨rfl, h.2.2.2.2.2.1 rfl⟩,
    ⟨rfl, h.2.2.2.2.2.2.2.2.2.2 rfl⟩⟩

/-! ## C1 — Parameter-count agreement between driver and model -/

theorem layerParamLines_countP (L : Layer) :
    (layerParamLines L).countP DLine.isParamDecl = 3 := rfl

theorem bilayerParamLines_countP (j : Nat) (bl : BilayerSpec) :
    (bilayerParamLines j bl).countP DLine.isParamDecl = 5 := rfl

theorem bilayerParamSection_countP :
    ∀ (bls : List BilayerSpec) (start : Nat),
      (bilayerParamSection start bls).countP DLine.isParamDecl = 5 * bls.length := by
  intro bls
  induction bls with
  | nil => intro start; rfl
  | cons b rest ih =>
    intro start
    simp only [bilayerParamSection, List.countP_append, bilayerParamLines_countP, ih]
    simp [List.length_cons]
    ring

theorem layerParamLines_noScale (L : Layer) :
    (layerParamLines L).countP DLine.isScalefactor = 0 := rfl

theorem bilayerParamSection_noScale :
    ∀ (bls : List BilayerSpec) (start : Nat),
      (bilayerParamSection start bls).countP DLine.isScalefactor = 0 := by
  intro bls
  induction bls with
  | nil => intro start; rfl
  | cons b rest ih =>
    intro start
    simp only [bilayerParamSection, List.countP_append, ih]
    rfl

theorem driverParamGroupLines_noScale (internal : List Layer) (specs : List BilayerSpec) :
    (driverParamGroupLines internal specs).countP DLine.isScalefactor = 0 := by
  unfold driverParamGroupLines
  rw [List.countP_append, bilayerParamSection_noScale]
  simp only [Nat.add_zero]
  induction internal with
  | nil => rfl
  | cons L rest ih =>
    simp only [List.flatMap_cons, List.countP_append, layerParamLines_noScale, ih]

theorem driverParamGroupLines_countP (internal : List Layer) (specs : List BilayerSpec) :
    (driverParamGroupLines internal specs).countP DLine.isParamDecl =
      3 * internal.length + 5 * specs.length := by
  unfold driverParamGroupLines
  rw [List.countP_append, bilayerParamSection_countP]
  congr 1
  induction internal with
  | nil => rfl
  | cons L rest ih =>
    simp only [List.flatMap_cons, List.countP_append, layerParamLines_countP, ih,
      List.length_cons]
    ring

theorem range_flatMap_const_length (k : Nat) (f : Nat → List String)
    (hf : ∀ i, (f i).length = k) : ∀ n, ((List.range n).flatMap f).length = n * k := by
  intro n
  induction n with
  | zero => simp
  | succ n ih =>
    rw [List.range_succ, List.flatMap_append, List.length_append, ih]
    simp [hf n]
    ring

theorem modelParamReadVars_length (layers : List Layer) (specs : List BilayerSpec) :
    (modelParamReadVars layers specs).length =
      1 + 3 * layers.length + 5 * specs.length := by
  unfold modelParamReadVars
  rw [List.append_assoc, List.length_append, List.length_append]
  rw [range_flatMap_const_length 3 _ (fun i => by rfl) layers.length]
  rw [range_flatMap_const_length 5 _ (fun i => by rfl) specs.length]
  simp
  ring

theorem ensure_bulk_decls_shape (func : String) (side : BulkSide) (bulk : Bulk) :
    (ensure_bulk func side bulk).2.1.countP DLine.isParamDecl = 0 ∧
      (ensure_bulk func side bulk).2.1.countP DLine.isScalefactor = 0 := by
  unfold ensure_bulk
  cases h : lookupKey side.mapping (bulk.name, pyRound8 bulk.sld) <;> simp [h] <;>
    constructor <;> rfl

theorem bulkFold_decls_countP :
    ∀ (ps : List (Bulk × Bulk)) (si so : BulkSide),
      ((bulkFold ps si so).2.2.1).countP DLine.isParamDecl = 0 ∧
        ((bulkFold ps si so).2.2.1).countP DLine.isScalefactor = 0 := by
  intro ps
  induction ps with
  | nil => intro si so; exact ⟨rfl, rfl⟩
  | cons p rest ih =>
    intro si so
    obtain ⟨b1, b2⟩ := p
    simp only [bulkFold, List.countP_append]
    have h1 := ensure_bulk_decls_shape "addBulkIn" si b1
    have h2 := ensure_bulk_decls_shape "addBulkOut" so b2
    have h3 := ih (ensure_bulk "addBulkIn" si b1).1 (ensure_bulk "addBulkOut" so b2).1
    omega

theorem contrastLinesAux_countP (bin bout : List String) :
    ∀ (names : List String) (j : Nat) (ls : List DLine),
      contrastLinesAux bin bout j names = Except.ok ls →
      ls.countP DLine.isParamDecl = 0 ∧ ls.countP DLine.isScalefactor = 0 := by
  intro names
  induction names with
  | nil =>
    intro j ls h
    simp only [contrastLinesAux] at h
    cases h
    exact ⟨rfl, rfl⟩
  | cons c rest ih =>
    intro j ls h
    simp only [contrastLinesAux] at h
    cases hb1 : bin.get? j with
    | none => rw [hb1] at h; cases hb2 : bout.get? j <;> rw [hb2] at h <;> cases h
    | some b1 =>
      rw [hb1] at h
      cases hb2 : bout.get? j with
      | none => rw [hb2] at h; cases h
      | some b2 =>
        rw [hb2] at h
        cases hr : contrastLinesAux bin bout (j + 1) rest with
        | error e => rw [hr] at h; cases h
        | ok ls' =>
          rw [hr] at h
          simp only [Except.map] at h
          cases h
          have := ih (j + 1) ls' hr
          simp only [List.countP_cons]
          simp [DLine.isParamDecl, DLine.isScalefactor, this.1, this.2]

/-- Shape of a driver emission with a nonempty `layers_all`: the only failure
point left is the per-contrast bulk-name indexing. -/
theorem emit_matlab_driver_eq (base : String) (bins bouts : List Bulk)
    (first : List Layer) (rest : List (List Layer)) (ort : String)
    (names : List String) (specs : List BilayerSpec) :
    emit_matlab_driver base bins bouts (first :: rest) ort names specs =
      (contrastLinesAux (bulkFold (bins.zip bouts) ⟨[], []⟩ ⟨[], []⟩).2.2.2.1
          (bulkFold (bins.zip bouts) ⟨[], []⟩ ⟨[], []⟩).2.2.2.2 0 names).map
        (fun cls =>
          [DLine.header base] ++
            driverParamGroupLines (first.drop 1).dropLast specs ++
            [DLine.paramsClose, DLine.addParamGroup,
              DLine.scalefactor "Scalefactor 1" 1 (1 / 2) 2 true, DLine.bulksBanner] ++
            (bulkFold (bins.zip bouts) ⟨[], []⟩ ⟨[], []⟩).2.2.1 ++
            [DLine.modelData (base ++ "_auto") ort names.length, DLine.contrastsBanner] ++
            cls ++ [DLine.runBlock]) := by
  unfold emit_matlab_driver
  dsimp only
  cases hc : contrastLinesAux (bulkFold (bins.zip bouts) ⟨[], []⟩ ⟨[], []⟩).2.2.2.1
      (bulkFold (bins.zip bouts) ⟨[], []⟩ ⟨[], []⟩).2.2.2.2 0 names <;>
    simp [hc, Except.map, Except.bind, bind]

/-- C1 (counterexample): with one internal layer (`L = 1`) and one bilayer
spec (`B = 1`) the driver declares `8` parameters in the group plus one scale
factor — `9` scalars in total, not the claimed `1 + 3·1 + 5·1 + 1 = 10`: no
substrate-roughness parameter is ever declared.  The emitted model function
does read `1 + 3·1 + 5·1 = 9` scalars, so the driver count excluding the
scale factor (`8`) does not equal the model consumption (`9`) either. -/
theorem C1_counterexample :
    (emit_matlab_driver "x" binsC1 binsC1 layersAllC1 "data/x.ort" ["c1"] [blW2]).map
        (fun ls => (ls.countP DLine.isParamDecl, ls.countP DLine.isScalefactor)) =
      Except.ok (8, 1) ∧
    (modelParamReadVars ((layersAllC1.headI.drop 1).dropLast) [blW2]).length = 9 ∧
    (8 + 1 ≠ 1 + 3 * 1 + 5 * 1 + 1 ∧ 8 ≠ 9) := by
  refine ⟨rfl, rfl, by omega⟩

/-- C1 (amended): the driver parameter group declares exactly `3·L + 5·B`
bounded parameters (three per internal layer, five per bilayer) and no
substrate-roughness parameter, plus the single scale factor declared outside
the group; the emitted model function reads `1 + 3·L + 5·B` scalars, i.e.
exactly one more than the group declares — the leading substrate roughness,
which the driver script leaves to the hosting environment. -/
theorem C1_param_count_agreement (internal : List Layer) (specs : List BilayerSpec)
    (base ort : String) (bins bouts : List Bulk) (first : List Layer)
    (rest : List (List Layer)) (names : List String) :
    (driverParamGroupLines internal specs).countP DLine.isParamDecl =
        3 * internal.length + 5 * specs.length ∧
      (modelParamReadVars internal specs).length =
        1 + 3 * internal.length + 5 * specs.length ∧
      (driverParamGroupLines internal specs).countP DLine.isParamDecl + 1 =
        (modelParamReadVars internal specs).length ∧
      ((emit_matlab_driver base bins bouts (first :: rest) ort names specs).isOk = true →
        (emit_matlab_driver base bins bouts (first :: rest) ort names specs).map
            (fun ls => (ls.countP DLine.isParamDecl, ls.countP DLine.isScalefactor)) =
          Except.ok (3 * ((first.drop 1).dropLast).length + 5 * specs.length, 1)) := by
  refine ⟨driverParamGroupLines_countP internal specs,
    modelParamReadVars_length internal specs, ?_, ?_⟩
  · rw [driverParamGroupLines_countP, modelParamReadVars_length]
    omega
  · intro hok
    rw [emit_matlab_driver_eq] at hok ⊢
    cases hc : contrastLinesAux
        (bulkFold (bins.zip bouts) ⟨[], []⟩ ⟨[], []⟩).2.2.2.1
        (bulkFold (bins.zip bouts) ⟨[], []⟩ ⟨[], []⟩).2.2.2.2 0 names with
    | error e =>
      exfalso
      rw [hc] at hok
      simp [Except.map, Except.isOk, Except.toBool] at hok
    | ok cls =>
      have hb := bulkFold_decls_countP (bins.zip bouts) ⟨[], []⟩ ⟨[], []⟩
      have hcl := contrastLinesAux_countP
        (bulkFold (bins.zip bouts) ⟨[], []⟩ ⟨[], []⟩).2.2.2.1
        (bulkFold (bins.zip bouts) ⟨[], []⟩ ⟨[], []⟩).2.2.2.2 names 0 cls hc
      simp only [Except.map, Except.ok.injEq]
      simp [List.countP_append, List.countP_cons, driverParamGroupLines_countP,
        driverParamGroupLines_noScale, hb.1, hb.2, hcl.1, hcl.2,
        DLine.isParamDecl, DLine.isScalefactor, List.drop_one]

/-- C1 (witness for the amended theorem): concrete evaluation with one
internal layer and one bilayer; the driver emission succeeds and the counts
are `(3·1 + 5·1, 1)`. -/
theorem C1_witness :
    (emit_matlab_driver "x" binsC1 binsC1 layersAllC1 "data/x.ort" ["c1"] [blW]).isOk = true ∧
      (emit_matlab_driver "x" binsC1 binsC1 layersAllC1 "data/x.ort" ["c1"] [blW]).map
          (fun ls => (ls.countP DLine.isParamDecl, ls.countP DLine.isScalefactor)) =
        Except.ok
          (3 * ((layersAllC1.headI.drop 1).dropLast).length + 5 * ([blW] : List BilayerSpec).length,
            1) := by
  have h := C1_param_count_agreement (layersAllC1.headI.drop 1).dropLast [blW]
    "x" "data/x.ort" binsC1 binsC1 layersAllC1.headI [] ["c1"]
  refine ⟨rfl, ?_⟩
  have := h.2.2.2 rfl
  exact this

/-! ## C8 — Only the first contrast with bilayer tokens defines the set -/

theorem processDataset_raw_some (st : ExtractState) (i : Nat) (ds : Dataset)
    (b : List BilayerRaw) (h : st.bilayer_specs_raw = some b) :
    (processDataset st i ds).bilayer_specs_raw = some b := by
  unfold processDataset
  cases hm : ds.model with
  | none => simpa using h
  | some m =>
    simp only [h]
    rw [if_neg (by simp)]
    cases hr : m.resolved with
    | error e => simpa using h
    | ok rl => dsimp only; split <;> simp

theorem processDataset_raw_none (st : ExtractState) (i : Nat) (ds : Dataset)
    (h : st.bilayer_specs_raw = none) :
    (processDataset st i ds).bilayer_specs_raw = dsBilayers ds := by
  unfold processDataset dsBilayers
  cases hm : ds.model with
  | none => simpa using h
  | some m =>
    simp only [Option.bind_some, Option.some_bind]
    by_cases hb : (extract_bilayers m.stack).1.isEmpty
    · rw [if_neg (by simp [hb]), if_pos hb]
      cases hr : m.resolved with
      | error e => simpa using h
      | ok rl => dsimp only; split <;> simp [h]
    · rw [if_pos (by simp [hb, h]), if_neg hb]
      cases hr : m.resolved with
      | error e => simp
      | ok rl => dsimp only; split <;> simp

theorem processLoop_raw :
    ∀ (ds : List Dataset) (i : Nat) (st : ExtractState),
      (processLoop i st ds).bilayer_specs_raw =
        st.bilayer_specs_raw.or (ds.findSome? dsBilayers) := by
  intro ds
  induction ds with
  | nil => intro i st; simp [processLoop]
  | cons d rest ih =>
    intro i st
    rw [processLoop, ih]
    cases hr : st.bilayer_specs_raw with
    | some b =>
      rw [processDataset_raw_some st i d b hr]
      simp
    | none =>
      rw [processDataset_raw_none st i d hr]
      rw [List.findSome?_cons]
      cases hd : dsBilayers d <;> simp

/-- C8: only the first dataset (in run order) whose stack contains bilayer
tokens contributes the raw bilayer token set — the selection equals the first
non-empty per-dataset extraction, appending further datasets can never change
an already-made selection, and the enriched specs in a successful run result
are built exactly from that first selection. -/
theorem C8_first_contrast_bilayers (datasets suffix : List Dataset) :
    selectBilayerRaw datasets = datasets.findSome? dsBilayers ∧
      ((selectBilayerRaw datasets).isSome →
        selectBilayerRaw (datasets ++ suffix) = selectBilayerRaw datasets) ∧
      ∀ tbl out, process_orso_file tbl datasets = Except.ok out →
        (build_bilayer_specs tbl ((datasets.findSome? dsBilayers).getD [])).map Prod.fst =
          Except.ok out.bilayer_specs := by
  have hmain : ∀ ds : List Dataset, selectBilayerRaw ds = ds.findSome? dsBilayers := by
    intro ds
    unfold selectBilayerRaw
    rw [processLoop_raw]
    rfl
  refine ⟨hmain datasets, ?_, ?_⟩
  · intro hsome
    rw [hmain, hmain, List.findSome?_append]
    rw [hmain] at hsome
    cases hfs : datasets.findSome? dsBilayers with
    | none => rw [hfs] at hsome; simp at hsome
    | some b => simp [hfs]
  · intro tbl out hok
    unfold process_orso_file at hok
    by_cases he : (processLoop 1 initExtractState datasets).layers_all.isEmpty
    · rw [if_pos he] at hok; cases hok
    · rw [if_neg he] at hok
      have harg : (processLoop 1 initExtractState datasets).bilayer_specs_raw =
          datasets.findSome? dsBilayers := hmain datasets
      rw [harg] at hok
      cases hb : build_bilayer_specs tbl ((datasets.findSome? dsBilayers).getD []) with
      | error e => rw [hb] at hok; cases hok
      | ok p =>
        rw [hb] at hok
        cases hok
        rfl

/-- C8 (witness): a run of two bilayer-carrying datasets selects the first
token set; appending the second dataset does not change the selection; and
the successful run's enriched specs come from that first selection. -/
theorem C8_witness :
    (selectBilayerRaw [dsB1]).isSome = true ∧
      selectBilayerRaw ([dsB1] ++ [dsB2]) = selectBilayerRaw [dsB1] ∧
      selectBilayerRaw [dsB1] = some [⟨"DPPC", "POPC"⟩] ∧
      selectBilayerRaw [dsB1, dsB2] = some [⟨"DPPC", "POPC"⟩] ∧
      ∀ out, process_orso_file (some tblFix) [dsB1] = Except.ok out →
        (build_bilayer_specs (some tblFix)
            (([dsB1].findSome? dsBilayers).getD [])).map Prod.fst =
          Except.ok out.bilayer_specs := by
  have h := C8_first_contrast_bilayers [dsB1] [dsB2]
  exact ⟨rfl, h.2.1 rfl, rfl, rfl, fun out hok => h.2.2 (some tblFix) out hok⟩

/-! ## C10 — Skipped contrasts desynchronize names from bulks -/

theorem processDataset_lengths (st : ExtractState) (i : Nat) (ds : Dataset) :
    (processDataset st i ds).contrast_names.length = st.contrast_names.length + 1 ∧
      (processDataset st i ds).bulk_ins.length =
        st.bulk_ins.length + (if dsSuccess ds then 1 else 0) ∧
      (processDataset st i ds).bulk_outs.length =
        st.bulk_outs.length + (if dsSuccess ds then 1 else 0) ∧
      (processDataset st i ds).layers_all.length =
        st.layers_all.length + (if dsSuccess ds then 1 else 0) := by
  cases hm : ds.model with
  | none =>
    have hs : dsSuccess ds = false := by simp [dsSuccess, hm]
    rw [hs]
    simp [processDataset, hm]
  | some m =>
    cases hr : m.resolved with
    | error e =>
      have hs : dsSuccess ds = false := by simp [dsSuccess, hm, hr]
      rw [hs]
      simp only [processDataset, hm, hr]
      split <;> simp
    | ok rl =>
      by_cases hlen : rl.length < 2
      · have hs : dsSuccess ds = false := by
          simp only [dsSuccess, hm, hr]
          simp
          omega
        rw [hs]
        simp only [processDataset, hm, hr]
        rw [if_pos hlen]
        split <;> simp
      · have hs : dsSuccess ds = true := by
          simp only [dsSuccess, hm, hr]
          simp
          omega
        rw [hs]
        simp only [processDataset, hm, hr]
        rw [if_neg hlen]
        split <;> simp

theorem processLoop_lengths :
    ∀ (ds : List Dataset) (i : Nat) (st : ExtractState),
      (processLoop i st ds).contrast_names.length =
          st.contrast_names.length + ds.length ∧
        (processLoop i st ds).bulk_ins.length =
          st.bulk_ins.length + ds.countP dsSuccess ∧
        (processLoop i st ds).bulk_outs.length =
          st.bulk_outs.length + ds.countP dsSuccess ∧
        (processLoop i st ds).layers_all.length =
          st.layers_all.length + ds.countP dsSuccess := by
  intro ds
  induction ds with
  | nil => intro i st; simp [processLoop]
  | cons d rest ih =>
    intro i st
    rw [processLoop]
    have hd := processDataset_lengths st i d
    have hr := ih (i + 1) (processDataset st i d)
    rw [List.countP_cons]
    refine ⟨?_, ?_, ?_, ?_⟩
    · rw [hr.1, hd.1]; simp [List.length_cons]; omega
    · rw [hr.2.1, hd.2.1]; by_cases hs : dsSuccess d <;> simp [hs] <;> omega
    · rw [hr.2.2.1, hd.2.2.1]; by_cases hs : dsSuccess d <;> simp [hs] <;> omega
    · rw [hr.2.2.2, hd.2.2.2]; by_cases hs : dsSuccess d <;> simp [hs] <;> omega

theorem exceptMap_isOk {α β : Type} (f : α → β) (x : Except String α) :
    (Except.map f x).isOk = x.isOk := by
  cases x <;> rfl

theorem bulkFold_names_length :
    ∀ (ps : List (Bulk × Bulk)) (si so : BulkSide),
      ((bulkFold ps si so).2.2.2.1).length = ps.length ∧
        ((bulkFold ps si so).2.2.2.2).length = ps.length := by
  intro ps
  induction ps with
  | nil => intro si so; exact ⟨rfl, rfl⟩
  | cons p rest ih =>
    intro si so
    obtain ⟨b1, b2⟩ := p
    have := ih (ensure_bulk "addBulkIn" si b1).1 (ensure_bulk "addBulkOut" so b2).1
    simp [bulkFold, this.1, this.2]

theorem contrastLinesAux_stuck :
    ∀ (names bin bout : List String) (j : Nat), names ≠ [] →
      bin.length < j + names.length →
      (contrastLinesAux bin bout j names).isOk = false := by
  intro names
  induction names with
  | nil => intro bin bout j hne h; exact absurd rfl hne
  | cons c rest ih =>
    intro bin bout j hne h
    rw [contrastLinesAux]
    cases hb1 : bin.get? j with
    | none => cases hb2 : bout.get? j <;> rfl
    | some b1 =>
      have hj : j < bin.length := by
        by_contra hc
        rw [List.get?_eq_none.mpr (by omega)] at hb1
        cases hb1
      cases hb2 : bout.get? j with
      | none => rfl
      | some b2 =>
        rw [exceptMap_isOk]
        have hrest : rest ≠ [] := by
          intro hr
          subst hr
          simp at h
          omega
        exact ih bin bout (j + 1) hrest (by simp at h ⊢; omega)

/-- C10: when a run succeeds while at least one contrast was skipped
non-fatally, the extractor still records that contrast's display name, so the
contrast-name list is strictly longer than the (equal-length) bulk-in and
bulk-out lists; driver emission then indexes the de-duplicated bulk-name
lists past their end and raises, so the run does not complete. -/
theorem C10_skipped_contrast_breaks_driver (tbl : Option LipidTable)
    (datasets : List Dataset) (out : Extracted)
    (hok : process_orso_file tbl datasets = Except.ok out)
    (d : Dataset) (hd : d ∈ datasets) (hskip : dsSuccess d = false)
    (base ort : String) :
    out.bulk_ins.length < out.contrast_names.length ∧
      out.bulk_ins.length = out.bulk_outs.length ∧
      (emit_matlab_driver base out.bulk_ins out.bulk_outs out.layers_all ort
          out.contrast_names out.bilayer_specs).isOk = false := by
  unfold process_orso_file at hok
  by_cases he : (processLoop 1 initExtractState datasets).layers_all.isEmpty
  · rw [if_pos he] at hok; cases hok
  · rw [if_neg he] at hok
    cases hb : build_bilayer_specs tbl
        ((processLoop 1 initExtractState datasets).bilayer_specs_raw.getD []) with
    | error e => rw [hb] at hok; cases hok
    | ok p =>
      rw [hb] at hok
      cases hok
      have hL := processLoop_lengths datasets 1 initExtractState
      have hcount : datasets.countP dsSuccess < datasets.length := by
        rcases Nat.lt_or_ge (datasets.countP dsSuccess) datasets.length with hlt | hge
        · exact hlt
        · exfalso
          have heq : datasets.countP dsSuccess = datasets.length :=
            Nat.le_antisymm (List.countP_le_length dsSuccess) hge
          have := List.countP_eq_length.mp heq d hd
          rw [hskip] at this
          cases this
      have hnames : (processLoop 1 initExtractState datasets).contrast_names.length =
          datasets.length := by rw [hL.1]; simp [initExtractState]
      have hins : (processLoop 1 initExtractState datasets).bulk_ins.length =
          datasets.countP dsSuccess := by rw [hL.2.1]; simp [initExtractState]
      have houts : (processLoop 1 initExtractState datasets).bulk_outs.length =
          datasets.countP dsSuccess := by rw [hL.2.2.1]; simp [initExtractState]
      refine ⟨by simp only [hnames, hins]; omega, by simp only [hins, houts], ?_⟩
      cases hll : (processLoop 1 initExtractState datasets).layers_all with
      | nil => rw [hll] at he; simp at he
      | cons f r =>
        rw [emit_matlab_driver_eq]
        rw [exceptMap_isOk]
        apply contrastLinesAux_stuck
        · intro hc
          have hlen0 := congrArg List.length hc
          rw [hnames] at hlen0
          simp at hlen0
          rw [hlen0] at hcount
          simp at hcount
        · have hzip := bulkFold_names_length
            (((processLoop 1 initExtractState datasets).bulk_ins).zip
              ((processLoop 1 initExtractState datasets).bulk_outs))
            ⟨[], []⟩ ⟨[], []⟩
          rw [hzip.1, List.length_zip, hins, houts, hnames]
          simp
          omega

/-- C10 (witness): one successful contrast followed by a model-less dataset;
the run extracts successfully with two names but one bulk pair, and driver
emission fails. -/
theorem C10_witness :
    process_orso_file none [dsC3, dsSkip] =
        Except.ok ⟨[[⟨"Si", 0, 2, 3⟩, ⟨"D2O", 0, 6, 3⟩]], [⟨"Si", 2⟩], [⟨"D2O", 6⟩],
          ["c1", "c2"], []⟩ ∧
      dsSkip ∈ [dsC3, dsSkip] ∧ dsSuccess dsSkip = false ∧
      (1 < 2 ∧ (1 = 1 ∧
        (emit_matlab_driver "x" [⟨"Si", 2⟩] [⟨"D2O", 6⟩] [[⟨"Si", 0, 2, 3⟩, ⟨"D2O", 0, 6, 3⟩]]
            "o" ["c1", "c2"] []).isOk = false)) := by
  have hok : process_orso_file none [dsC3, dsSkip] =
      Except.ok ⟨[[⟨"Si", 0, 2, 3⟩, ⟨"D2O", 0, 6, 3⟩]], [⟨"Si", 2⟩], [⟨"D2O", 6⟩],
        ["c1", "c2"], []⟩ := rfl
  have h := C10_skipped_contrast_breaks_driver none [dsC3, dsSkip]
    ⟨[[⟨"Si", 0, 2, 3⟩, ⟨"D2O", 0, 6, 3⟩]], [⟨"Si", 2⟩], [⟨"D2O", 6⟩], ["c1", "c2"], []⟩
    hok dsSkip (by simp) rfl "x" "o"
  exact ⟨hok, by simp, rfl, h.1, h.2.1, h.2.2⟩

/-! ## C7 — Bulk de-duplication keyed on name and rounded SLD -/

theorem uCand_inj (base : String) (i j : Nat) (h : uCand base i = uCand base j) :
    i = j := by
  unfold uCand at h
  have hd := congrArg String.data h
  simp only [String.data_append] at hd
  have hr : (Nat.repr i).data = (Nat.repr j).data := List.append_cancel_left hd
  exact natRepr_injective (String.ext hr)

theorem base_ne_uCand (base : String) (i : Nat) : base ≠ uCand base i := by
  intro h
  have hl := congrArg String.length h
  unfold uCand at hl
  simp only [String.length_append] at hl
  have : ("_" : String).length = 1 := rfl
  omega

theorem uniqueLoop_erase (used : List String) (base x : String) :
    ∀ (fuel i : Nat) (cur : String), cur ≠ x → (∀ j, i ≤ j → uCand base j ≠ x) →
      uniqueLoop used base cur i fuel = uniqueLoop (used.erase x) base cur i fuel := by
  intro fuel
  induction fuel with
  | zero => intro i cur _ _; rfl
  | succ fuel ih =>
    intro i cur hcur hcand
    rw [uniqueLoop, uniqueLoop]
    by_cases hmem : cur ∈ used
    · rw [if_pos hmem, if_pos ((List.mem_erase_of_ne hcur).mpr hmem)]
      exact ih (i + 1) (uCand base i) (hcand i (le_refl i)) fun j hj => hcand j (by omega)
    · rw [if_neg hmem, if_neg fun hc => hmem ((List.mem_erase_of_ne hcur).mp hc)]

theorem uniqueLoop_shape (used : List String) (base : String) :
    ∀ (fuel i : Nat) (cur : String),
      uniqueLoop used base cur i fuel = cur ∨
        ∃ j, i ≤ j ∧ uniqueLoop used base cur i fuel = uCand base j := by
  intro fuel
  induction fuel with
  | zero => intro i cur; left; rfl
  | succ fuel ih =>
    intro i cur
    rw [uniqueLoop]
    by_cases hmem : cur ∈ used
    · rw [if_pos hmem]
      rcases ih (i + 1) (uCand base i) with h | ⟨j, hj, h⟩
      · right; exact ⟨i, le_refl i, h⟩
      · right; exact ⟨j, by omega, h⟩
    · rw [if_neg hmem]; left; rfl

theorem uniqueLoop_not_mem (base : String) :
    ∀ (fuel : Nat) (used : List String) (i : Nat) (cur : String),
      used.length < fuel →
      (cur = base ∨ ∃ i0, i0 < i ∧ cur = uCand base i0) →
      uniqueLoop used base cur i fuel ∉ used := by
  intro fuel
  induction fuel with
  | zero => intro used i cur h _; omega
  | succ fuel ih =>
    intro used i cur hfuel hcur
    by_cases hmem : cur ∈ used
    · rw [uniqueLoop, if_pos hmem]
      have hcand : ∀ j, i ≤ j → uCand base j ≠ cur := by
        intro j hj heq
        rcases hcur with rfl | ⟨i0, hi0, rfl⟩
        · exact base_ne_uCand cur j heq.symm
        · have := uCand_inj base j i0 heq
          omega
      rw [uniqueLoop_erase used base cur fuel (i + 1) (uCand base i)
        (hcand i (le_refl i)) fun j hj => hcand j (by omega)]
      have hpos := List.length_pos_of_mem hmem
      have hres := ih (used.erase cur) (i + 1) (uCand base i)
        (by rw [List.length_erase_of_mem hmem]; omega) (Or.inr ⟨i, by omega, rfl⟩)
      intro hin
      have hne : uniqueLoop (used.erase cur) base (uCand base i) (i + 1) fuel ≠ cur := by
        rcases uniqueLoop_shape (used.erase cur) base fuel (i + 1) (uCand base i)
          with h | ⟨j, hj, h⟩
        · rw [h]; exact fun hc => hcand i (le_refl i) hc
        · rw [h]; exact fun hc => hcand j (by omega) hc
      exact hres ((List.mem_erase_of_ne hne).mpr hin)
    · rw [uniqueLoop, if_neg hmem]
      exact hmem

theorem unique_not_mem (base : String) (used : List String) :
    unique base used ∉ used :=
  uniqueLoop_not_mem base (used.length + 1) used 2 base (by omega) (Or.inl rfl)

theorem lookupKey_mem {m : List ((String × ℚ) × String)} {k : String × ℚ} {v : String}
    (h : lookupKey m k = some v) : (k, v) ∈ m := by
  unfold lookupKey at h
  cases hf : m.find? fun e => e.1 = k with
  | none => rw [hf] at h; cases h
  | some e =>
    rw [hf] at h
    have hm := List.mem_of_find?_eq_some hf
    have hp := List.find?_some hf
    have hp2 : e.1 = k := by simpa using hp
    have hv2 : e.2 = v := by simpa using h
    have heq : e = (k, v) := Prod.ext hp2 hv2
    rw [← heq]
    exact hm

theorem lookup_val_inj {m : List ((String × ℚ) × String)}
    (hnodup : (m.map fun kv => kv.2).Nodup) {k1 k2 : String × ℚ} {v : String}
    (h1 : lookupKey m k1 = some v) (h2 : lookupKey m k2 = some v) : k1 = k2 := by
  have m1 := lookupKey_mem h1
  have m2 := lookupKey_mem h2
  have := List.inj_on_of_nodup_map hnodup m1 m2 rfl
  exact congrArg Prod.fst this

theorem ensure_bulk_inv (func : String) (side : BulkSide) (bulk : Bulk)
    (h : SideInv side) :
    SideInv (ensure_bulk func side bulk).1 ∧
      (∀ k v, lookupKey side.mapping k = some v →
        lookupKey (ensure_bulk func side bulk).1.mapping k = some v) ∧
      lookupKey (ensure_bulk func side bulk).1.mapping (bulkKey bulk) =
        some (ensure_bulk func side bulk).2.2 := by
  unfold ensure_bulk
  dsimp only
  cases hk : lookupKey side.mapping (bulk.name, pyRound8 bulk.sld) with
  | some n => exact ⟨h, fun k v hv => hv, hk⟩
  | none =>
    dsimp only
    have hfresh : unique bulk.name side.used ∉ side.used := unique_not_mem _ _
    have hval : unique bulk.name side.used ∉ side.mapping.map fun kv => kv.2 := by
      intro hc
      rcases List.mem_map.mp hc with ⟨kv, hkv, hkveq⟩
      exact hfresh (hkveq ▸ h.1 kv hkv)
    refine ⟨⟨?_, ?_⟩, ?_, ?_⟩
    · intro kv hkv
      rcases List.mem_cons.mp hkv with rfl | hold
      · exact List.mem_cons_self _ _
      · exact List.mem_cons_of_mem _ (h.1 kv hold)
    · rw [List.map_cons]
      exact List.Nodup.cons hval h.2
    · intro k v hv
      have hkne : ¬ ((bulk.name, pyRound8 bulk.sld) = k) := by
        intro hc
        rw [hc, hv] at hk
        cases hk
      unfold lookupKey at hv ⊢
      have hd : decide (((bulk.name, pyRound8 bulk.sld),
          unique bulk.name side.used).1 = k) = false := by simp [hkne]
      rw [List.find?_cons, hd]
      exact hv
    · unfold lookupKey
      rw [List.find?_cons]
      simp [bulkKey]

theorem sideFold_spec (func : String) :
    ∀ (bs : List Bulk) (side : BulkSide), SideInv side →
      SideInv (sideFold func side bs).1 ∧
        (∀ k v, lookupKey side.mapping k = some v →
          lookupKey (sideFold func side bs).1.mapping k = some v) ∧
        (∀ b ∈ bs, (lookupKey (sideFold func side bs).1.mapping (bulkKey b)).isSome = true) ∧
        (sideFold func side bs).2.2 =
          bs.map fun b => (lookupKey (sideFold func side bs).1.mapping (bulkKey b)).getD "" := by
  intro bs
  induction bs with
  | nil => intro side h; exact ⟨h, fun k v hv => hv, by simp, rfl⟩
  | cons b rest ih =>
    intro side h
    have he := ensure_bulk_inv func side b h
    have hr := ih (ensure_bulk func side b).1 he.1
    have hself : lookupKey (sideFold func (ensure_bulk func side b).1 rest).1.mapping
        (bulkKey b) = some (ensure_bulk func side b).2.2 :=
      hr.2.1 _ _ he.2.2
    refine ⟨hr.1, ?_, ?_, ?_⟩
    · intro k v hv
      exact hr.2.1 k v (he.2.1 k v hv)
    · intro b' hb'
      rcases List.mem_cons.mp hb' with rfl | hold
      · rw [show (sideFold func side (b' :: rest)).1 =
            (sideFold func (ensure_bulk func side b').1 rest).1 from rfl]
        rw [hself]
        rfl
      · rw [show (sideFold func side (b :: rest)).1 =
            (sideFold func (ensure_bulk func side b).1 rest).1 from rfl]
        exact hr.2.2.1 b' hold
    · rw [show (sideFold func side (b :: rest)).2.2 =
          (ensure_bulk func side b).2.2 :: (sideFold func (ensure_bulk func side b).1 rest).2.2
          from rfl]
      rw [List.map_cons]
      congr 1
      · rw [show (sideFold func side (b :: rest)).1 =
            (sideFold func (ensure_bulk func side b).1 rest).1 from rfl]
        rw [hself]
        rfl
      · rw [show (sideFold func side (b :: rest)).1 =
            (sideFold func (ensure_bulk func side b).1 rest).1 from rfl]
        exact hr.2.2.2

theorem ensure_bulk_filter_self (func : String) (side : BulkSide) (b : Bulk) :
    ((ensure_bulk func side b).2.1).filter (DLine.isBulkDeclFor func) =
      (ensure_bulk func side b).2.1 := by
  unfold ensure_bulk
  dsimp only
  cases hk : lookupKey side.mapping (b.name, pyRound8 b.sld) with
  | some n => rfl
  | none => simp [DLine.isBulkDeclFor]

theorem ensure_bulk_filter_other (f g : String) (side : BulkSide) (b : Bulk)
    (h : f ≠ g) :
    ((ensure_bulk f side b).2.1).filter (DLine.isBulkDeclFor g) = [] := by
  unfold ensure_bulk
  dsimp only
  cases hk : lookupKey side.mapping (b.name, pyRound8 b.sld) with
  | some n => rfl
  | none => simp [DLine.isBulkDeclFor, h]

theorem bulkFold_in_proj :
    ∀ (ps : List (Bulk × Bulk)) (si so : BulkSide),
      (bulkFold ps si so).2.2.2.1 = (sideFold "addBulkIn" si (ps.map Prod.fst)).2.2 ∧
        (bulkFold ps si so).1 = (sideFold "addBulkIn" si (ps.map Prod.fst)).1 ∧
        (bulkFold ps si so).2.2.1.filter (DLine.isBulkDeclFor "addBulkIn") =
          (sideFold "addBulkIn" si (ps.map Prod.fst)).2.1 := by
  intro ps
  induction ps with
  | nil => intro si so; exact ⟨rfl, rfl, rfl⟩
  | cons p rest ih =>
    intro si so
    obtain ⟨b1, b2⟩ := p
    have hr := ih (ensure_bulk "addBulkIn" si b1).1 (ensure_bulk "addBulkOut" so b2).1
    refine ⟨?_, ?_, ?_⟩
    · show (ensure_bulk "addBulkIn" si b1).2.2 ::
          (bulkFold rest (ensure_bulk "addBulkIn" si b1).1
            (ensure_bulk "addBulkOut" so b2).1).2.2.2.1 = _
      rw [hr.1]
      rfl
    · show (bulkFold rest (ensure_bulk "addBulkIn" si b1).1
          (ensure_bulk "addBulkOut" so b2).1).1 = _
      rw [hr.2.1]
      rfl
    · show ((ensure_bulk "addBulkIn" si b1).2.1 ++ (ensure_bulk "addBulkOut" so b2).2.1 ++
          (bulkFold rest (ensure_bulk "addBulkIn" si b1).1
            (ensure_bulk "addBulkOut" so b2).1).2.2.1).filter
          (DLine.isBulkDeclFor "addBulkIn") = _
      rw [List.filter_append, List.filter_append,
        ensure_bulk_filter_self "addBulkIn" si b1,
        ensure_bulk_filter_other "addBulkOut" "addBulkIn" so b2 (by decide),
        hr.2.2]
      simp only [List.append_nil]
      rfl


theorem C7_round1 : pyRound8 (6 / 1000000 : ℚ) = 3 / 500000 := by
  unfold pyRound8 roundHalfEven
  norm_num

theorem C7_round2 : pyRound8 (61 / 10000000 : ℚ) = 61 / 10000000 := by
  unfold pyRound8 roundHalfEven
  norm_num

theorem C7_round3 : pyRound8 (2 : ℚ) = 2 := by
  unfold pyRound8 roundHalfEven
  norm_num

theorem C7_rne : (3 / 500000 : ℚ) ≠ 61 / 10000000 := by norm_num

theorem C7_ucand2 : uCand "D2O" 2 = "D2O_2" := rfl

theorem C7_s2 : ("D2O" ++ "_" ++ Nat.repr 2 : String) = "D2O_2" := rfl

theorem C7_sne : (("D2O_2" : String) = "D2O") = False := eq_false (by decide)

theorem C7_sne2 : (("addBulkOut" : String) = "addBulkIn") = False := eq_false (by decide)

theorem C7_concrete_names :
    (bulkFold (binsC7.zip outsC7) ⟨[], []⟩ ⟨[], []⟩).2.2.2.1 = ["D2O", "D2O", "D2O_2"] := by
  simp only [binsC7, outsC7, List.zip, List.zipWith, bulkFold, ensure_bulk, lookupKey,
    List.find?, unique, uniqueLoop, uCand, C7_round1, C7_round2, C7_round3]
  norm_num [C7_rne, C7_s2, C7_sne]

theorem C7_concrete_decls :
    ((bulkFold (binsC7.zip outsC7) ⟨[], []⟩ ⟨[], []⟩).2.2.1.filter
        (DLine.isBulkDeclFor "addBulkIn")).filterMap DLine.bulkDeclName =
      ["D2O", "D2O_2"] := by
  simp only [binsC7, outsC7, List.zip, List.zipWith, bulkFold, ensure_bulk, lookupKey,
    List.find?, unique, uniqueLoop, uCand, C7_round1, C7_round2, C7_round3]
  norm_num [C7_rne, C7_s2, C7_sne, C7_sne2, DLine.isBulkDeclFor, DLine.bulkDeclName,
    List.filter, List.filterMap]

/-- C7: two bulk records wired by the de-duplication loop receive the same
declared bulk name iff their names are equal and their SLDs agree after
rounding to 8 decimals; and on the spec example
`[{D2O, 6.0e-6}, {D2O, 6.0e-6}, {D2O, 6.1e-6}]` exactly two bulk entries are
declared, the second disambiguated as `D2O_2`. -/
theorem C7_bulk_dedup (bulk_ins bulk_outs : List Bulk)
    (hlen : bulk_ins.length = bulk_outs.length) (i j : Nat) (bi bj : Bulk)
    (ni nj : String)
    (hbi : bulk_ins.get? i = some bi) (hbj : bulk_ins.get? j = some bj)
    (hni : ((bulkFold (bulk_ins.zip bulk_outs) ⟨[], []⟩ ⟨[], []⟩).2.2.2.1).get? i = some ni)
    (hnj : ((bulkFold (bulk_ins.zip bulk_outs) ⟨[], []⟩ ⟨[], []⟩).2.2.2.1).get? j = some nj) :
    (ni = nj ↔ bulkKey bi = bulkKey bj) ∧
      (bulkFold (binsC7.zip outsC7) ⟨[], []⟩ ⟨[], []⟩).2.2.2.1 = ["D2O", "D2O", "D2O_2"] ∧
      ((bulkFold (binsC7.zip outsC7) ⟨[], []⟩ ⟨[], []⟩).2.2.1.filter
          (DLine.isBulkDeclFor "addBulkIn")).filterMap DLine.bulkDeclName =
        ["D2O", "D2O_2"] := by
  have hinit : SideInv ⟨[], []⟩ :=
    ⟨fun kv hkv => absurd hkv (List.not_mem_nil kv), List.nodup_nil⟩
  have hproj := bulkFold_in_proj (bulk_ins.zip bulk_outs) ⟨[], []⟩ ⟨[], []⟩
  have hfst : (bulk_ins.zip bulk_outs).map Prod.fst = bulk_ins :=
    List.map_fst_zip bulk_ins bulk_outs (le_of_eq hlen)
  have hspec := sideFold_spec "addBulkIn" bulk_ins ⟨[], []⟩ hinit
  rw [hproj.1, hfst] at hni hnj
  rw [hspec.2.2.2] at hni hnj
  rw [List.get?_map, hbi] at hni
  rw [List.get?_map, hbj] at hnj
  simp at hni hnj
  obtain ⟨v1, hv1⟩ := Option.isSome_iff_exists.mp
    (hspec.2.2.1 bi (List.get?_mem hbi))
  obtain ⟨v2, hv2⟩ := Option.isSome_iff_exists.mp
    (hspec.2.2.1 bj (List.get?_mem hbj))
  have hni2 : ni = v1 := by
    rw [← hni, hv1]
    rfl
  have hnj2 : nj = v2 := by
    rw [← hnj, hv2]
    rfl
  refine ⟨⟨?_, ?_⟩, ?_, ?_⟩
  · intro heq
    rw [hni2, hnj2] at heq
    subst heq
    exact lookup_val_inj hspec.1.2 hv1 hv2
  · intro heq
    rw [hni2, hnj2]
    rw [heq] at hv1
    rw [hv1] at hv2
    exact (Option.some.injEq v1 v2).mp hv2
  · exact C7_concrete_names
  · exact C7_concrete_decls

/-- C7 (witness): on the spec example, records 0 and 2 share the name `D2O`
only if their keys agree — and indeed they receive distinct names. -/
theorem C7_witness :
    binsC7.length = outsC7.length ∧
      binsC7.get? 0 = some ⟨"D2O", 6 / 1000000⟩ ∧
      binsC7.get? 2 = some ⟨"D2O", 61 / 10000000⟩ ∧
      (bulkFold (binsC7.zip outsC7) ⟨[], []⟩ ⟨[], []⟩).2.2.2.1.get? 0 = some "D2O" ∧
      (bulkFold (binsC7.zip outsC7) ⟨[], []⟩ ⟨[], []⟩).2.2.2.1.get? 2 = some "D2O_2" ∧
      (("D2O" : String) = "D2O_2" ↔
        bulkKey ⟨"D2O", 6 / 1000000⟩ = bulkKey ⟨"D2O", 61 / 10000000⟩) := by
  have hn0 : (bulkFold (binsC7.zip outsC7) ⟨[], []⟩ ⟨[], []⟩).2.2.2.1.get? 0 =
      some "D2O" := by rw [C7_concrete_names]; rfl
  have hn2 : (bulkFold (binsC7.zip outsC7) ⟨[], []⟩ ⟨[], []⟩).2.2.2.1.get? 2 =
      some "D2O_2" := by rw [C7_concrete_names]; rfl
  have h := C7_bulk_dedup binsC7 outsC7 rfl 0 2 ⟨"D2O", 6 / 1000000⟩
    ⟨"D2O", 61 / 10000000⟩ "D2O" "D2O_2" rfl rfl hn0 hn2
  exact ⟨rfl, rfl, rfl, hn0, hn2, h.1⟩

/-! ## C9: sanitization of names embedded in the driver script -/

/-- `noDoubleSpace` is the chain condition "no two adjacent spaces". -/
theorem ndsp_iff_chain :
    ∀ l : List Char,
      (noDoubleSpace l = true ↔ l.Chain' fun a b => ¬(a = ' ' ∧ b = ' '))
  | [] => by simp [noDoubleSpace]
  | [a] => by simp [noDoubleSpace]
  | a :: b :: rest => by
    rw [noDoubleSpace, List.chain'_cons, Bool.and_eq_true,
      ← ndsp_iff_chain (b :: rest)]
    constructor
    · rintro ⟨h1, h2⟩
      refine ⟨?_, h2⟩
      rintro ⟨rfl, rfl⟩
      simp at h1
    · rintro ⟨h1, h2⟩
      refine ⟨?_, h2⟩
      simp only [Bool.not_eq_true', Bool.and_eq_false_iff, decide_eq_false_iff_not]
      by_cases ha : a = ' '
      · right; intro hb; exact h1 ⟨ha, hb⟩
      · left; exact ha

/-- The whitespace-collapsing worker only emits spaces for whitespace, never
two adjacent spaces, and its output starts with a space only from the
not-in-run state. -/
theorem subRunsAux_ws_props :
    ∀ (cs : List Char) (b : Bool),
      (∀ c ∈ subRunsAux isPySpace ' ' b cs, isPySpace c = true → c = ' ') ∧
        List.Chain' (fun a c => ¬(a = ' ' ∧ c = ' '))
          (subRunsAux isPySpace ' ' b cs) ∧
        ((subRunsAux isPySpace ' ' b cs).head? = some ' ' → b = false)
  | [], b => by simp [subRunsAux]
  | c :: cs, b => by
    have ihT := subRunsAux_ws_props cs true
    have ihF := subRunsAux_ws_props cs false
    by_cases hp : isPySpace c = true
    · cases b with
      | true =>
        simp only [subRunsAux, hp, if_true]
        exact ihT
      | false =>
        simp only [subRunsAux, hp, if_true, Bool.false_eq_true, if_false]
        refine ⟨?_, ?_, ?_⟩
        · intro x hx hxs
          rcases List.mem_cons.mp hx with rfl | hx
          · rfl
          · exact ihT.1 x hx hxs
        · rw [List.chain'_cons']
          refine ⟨?_, ihT.2.1⟩
          intro y hy hcontra
          have hy2 : y = ' ' := hcontra.2
          subst hy2
          exact absurd (ihT.2.2 (Option.mem_def.mp hy)) (by simp)
        · intro h2
          trivial
    · have hps : isPySpace c = false := by
        cases h : isPySpace c
        · rfl
        · exact absurd h hp
      simp only [subRunsAux, hps, Bool.false_eq_true, if_false]
      refine ⟨?_, ?_, ?_⟩
      · intro x hx hxs
        rcases List.mem_cons.mp hx with rfl | hx
        · exact absurd hxs hp
        · exact ihF.1 x hx hxs
      · rw [List.chain'_cons']
        refine ⟨?_, ihF.2.1⟩
        intro y _ hcontra
        have : c = ' ' := hcontra.1
        subst this
        exact hp rfl
      · intro h
        have : c = ' ' := by
          simpa using h
        subst this
        exact absurd rfl hp

theorem head_dropWhile_not (p : Char → Bool) :
    ∀ (l : List Char) (c : Char), (l.dropWhile p).head? = some c → p c = false
  | [], c => by simp
  | a :: l, c => by
    intro h
    rw [List.dropWhile_cons] at h
    by_cases hp : p a = true
    · rw [if_pos hp] at h
      exact head_dropWhile_not p l c h
    · rw [if_neg hp] at h
      simp only [List.head?_cons, Option.some.injEq] at h
      subst h
      cases hpa : p a
      · rfl
      · exact absurd hpa hp

theorem pyStripList_infix (cs : List Char) : pyStripList cs <:+: cs := by
  unfold pyStripList
  have h1 : cs.dropWhile isPySpace <:+ cs := List.dropWhile_suffix _
  have h2 : (cs.dropWhile isPySpace).reverse.dropWhile isPySpace <:+
      (cs.dropWhile isPySpace).reverse := List.dropWhile_suffix _
  have h3 : ((cs.dropWhile isPySpace).reverse.dropWhile isPySpace).reverse <+:
      cs.dropWhile isPySpace := by
    have h4 := List.reverse_prefix.mpr h2
    rwa [List.reverse_reverse] at h4
  exact h3.isInfix.trans h1.isInfix

theorem pyStripList_getLast (cs : List Char) (c : Char)
    (h : (pyStripList cs).getLast? = some c) : isPySpace c = false := by
  unfold pyStripList at h
  rw [List.getLast?_reverse] at h
  exact head_dropWhile_not isPySpace _ c h

/-- Trimming and collapsing whitespace yields a `wsCollapsed` string whose
last character, if any, is not a space. -/
theorem cleanName_props (s : String) :
    wsCollapsed (pyStrip (collapseWs s)) = true ∧
      ∀ c, (pyStrip (collapseWs s)).toList.getLast? = some c → c ≠ ' ' := by
  have hbase := subRunsAux_ws_props s.toList false
  have hinf : pyStripList (subRunsAux isPySpace ' ' false s.toList) <:+:
      subRunsAux isPySpace ' ' false s.toList := pyStripList_infix _
  have htl : (pyStrip (collapseWs s)).toList =
      pyStripList (subRunsAux isPySpace ' ' false s.toList) := rfl
  constructor
  · rw [wsCollapsed, Bool.and_eq_true, htl]
    constructor
    · rw [List.all_eq_true]
      intro c hc
      have hmem : c ∈ subRunsAux isPySpace ' ' false s.toList :=
        hinf.sublist.subset hc
      by_cases hps : isPySpace c = true
      · have := hbase.1 c hmem hps
        simp [this]
      · simp [hps]
    · rw [ndsp_iff_chain]
      exact List.Chain'.infix hbase.2.1 hinf
  · intro c hc
    rw [htl] at hc
    have := pyStripList_getLast _ c hc
    intro hsp
    subst hsp
    simp [isPySpace] at this

theorem wsCollapsed_append (a b : String) (ha : wsCollapsed a = true)
    (hb : wsCollapsed b = true)
    (hbd : ∀ c, a.toList.getLast? = some c → c = ' ' →
      b.toList.head? ≠ some ' ') :
    wsCollapsed (a ++ b) = true := by
  rw [wsCollapsed, Bool.and_eq_true] at ha hb ⊢
  have htl : (a ++ b).toList = a.toList ++ b.toList := by
    show (a ++ b).data = a.data ++ b.data
    exact String.data_append a b
  rw [htl]
  constructor
  · rw [List.all_append, Bool.and_eq_true]
    exact ⟨ha.1, hb.1⟩
  · rw [ndsp_iff_chain, List.chain'_append]
    refine ⟨(ndsp_iff_chain _).mp ha.2, (ndsp_iff_chain _).mp hb.2, ?_⟩
    intro x hx y hy hcontra
    obtain ⟨rfl, rfl⟩ := hcontra
    have hx2 : a.toList.getLast? = some ' ' := hx
    have hy2 : b.toList.head? = some ' ' := hy
    exact hbd ' ' hx2 rfl hy2

theorem chain_of_no_space :
    ∀ l : List Char, (∀ c ∈ l, isPySpace c = false) →
      l.Chain' fun a b => ¬(a = ' ' ∧ b = ' ')
  | [], _ => List.chain'_nil
  | c :: cs, h => by
    rw [List.chain'_cons']
    refine ⟨?_, chain_of_no_space cs fun x hx => h x (List.mem_cons_of_mem c hx)⟩
    intro y _ hcontra
    have hc : c = ' ' := hcontra.1
    have := h c (List.mem_cons_self c cs)
    rw [hc] at this
    simp [isPySpace] at this

theorem wsCollapsed_of_no_ws (s : String)
    (h : ∀ c ∈ s.toList, isPySpace c = false) : wsCollapsed s = true := by
  rw [wsCollapsed, Bool.and_eq_true]
  constructor
  · rw [List.all_eq_true]
    intro c hc
    simp [h c hc]
  · rw [ndsp_iff_chain]
    exact chain_of_no_space s.toList h

theorem digit_not_pySpace (c : Char) (h : c.isDigit = true) :
    isPySpace c = false := by
  cases hps : isPySpace c
  · rfl
  · exfalso
    simp only [isPySpace, Bool.or_eq_true, decide_eq_true_eq] at hps
    rcases hps with ((((rfl | rfl) | rfl) | rfl) | rfl) | rfl <;> exact absurd h (by decide)

theorem repr_data_digit (n : Nat) : ∀ c ∈ (Nat.repr n).data, c.isDigit = true := by
  rcases eq_or_ne n 0 with rfl | hn
  · intro c hc
    have : c ∈ ['0'] := hc
    simp only [List.mem_singleton] at this
    subst this
    decide
  · intro c hc
    rw [repr_eq_digits n hn] at hc
    have hc2 : c ∈ ((Nat.digits 10 n).map Nat.digitChar).reverse := hc
    rw [List.mem_reverse, List.mem_map] at hc2
    obtain ⟨d, hd, rfl⟩ := hc2
    have hd10 : d < 10 := Nat.digits_lt_base (by norm_num) hd
    have key : ∀ x : Fin 10, (Nat.digitChar x.val).isDigit = true := by decide
    exact key ⟨d, hd10⟩

theorem repr_data_ne_nil (n : Nat) : (Nat.repr n).data ≠ [] := by
  rcases eq_or_ne n 0 with rfl | hn
  · intro h
    exact absurd h (by decide)
  · rw [repr_eq_digits n hn]
    have : Nat.digits 10 n ≠ [] := Nat.digits_ne_nil_iff_ne_zero.mpr hn
    simp [List.asString]
    intro hcon
    exact this hcon

theorem wordChar_ascii (c : Char) (h : isWordChar c = true) : c.toNat < 128 := by
  simp [isWordChar, Char.isAlpha, Char.isDigit, Char.isUpper, Char.isLower] at h
  rcases h with (h | h) | h
  · rcases h with ⟨h1, h2⟩ | ⟨h1, h2⟩ <;>
      · have hh : c.toNat ≤ 90 ∨ c.toNat ≤ 122 := by
          first
            | exact Or.inl (h2 : c.val.toNat ≤ (90 : UInt32).toNat)
            | exact Or.inr (h2 : c.val.toNat ≤ (122 : UInt32).toNat)
        rcases hh with hh | hh <;> omega
  · have hh : c.toNat ≤ 57 := (h.2 : c.val.toNat ≤ (57 : UInt32).toNat)
    omega
  · subst h; decide

/-- Every character the run-substitution emits is either the replacement or a
character of the input that fails the predicate. -/
theorem mem_subRunsAux (p : Char → Bool) (rep : Char) :
    ∀ (cs : List Char) (b : Bool) (c : Char),
      c ∈ subRunsAux p rep b cs → c = rep ∨ (c ∈ cs ∧ p c = false)
  | [], _, c => by simp [subRunsAux]
  | a :: cs, b, c => by
    intro h
    by_cases hp : p a = true
    · simp only [subRunsAux, hp, if_true] at h
      cases b with
      | true =>
        rcases mem_subRunsAux p rep cs true c h with h2 | h2
        · exact Or.inl h2
        · exact Or.inr ⟨List.mem_cons_of_mem a h2.1, h2.2⟩
      | false =>
        rcases List.mem_cons.mp h with rfl | h2
        · exact Or.inl rfl
        · rcases mem_subRunsAux p rep cs true c h2 with h3 | h3
          · exact Or.inl h3
          · exact Or.inr ⟨List.mem_cons_of_mem a h3.1, h3.2⟩
    · have hps : p a = false := by
        cases hq : p a
        · rfl
        · exact absurd hq hp
      simp only [subRunsAux, hps, Bool.false_eq_true, if_false] at h
      rcases List.mem_cons.mp h with rfl | h2
      · exact Or.inr ⟨List.mem_cons_self c cs, hps⟩
      · rcases mem_subRunsAux p rep cs false c h2 with h3 | h3
        · exact Or.inl h3
        · exact Or.inr ⟨List.mem_cons_of_mem a h3.1, h3.2⟩

/-- The sanitized contrast name consists of regex word characters only. -/
theorem safeContrastName_wordChars (s : String) :
    (safeContrastName s).toList.all isWordChar = true := by
  rw [List.all_eq_true]
  intro c hc
  have hmem : c ∈ subRunsAux (fun c => !isWordChar c) '_' false s.toList := hc
  rcases mem_subRunsAux _ _ _ _ _ hmem with rfl | h2
  · decide
  · have := h2.2
    simp only [Bool.not_eq_false'] at this
    exact this

/-- The sanitized contrast name is pure ASCII. -/
theorem safeContrastName_ascii (s : String) :
    allAscii (safeContrastName s) = true := by
  rw [allAscii, List.all_eq_true]
  intro c hc
  have hw := List.all_eq_true.mp (safeContrastName_wordChars s) c hc
  simp only [decide_eq_true_eq]
  exact wordChar_ascii c hw

/-- The `Bilayer<j>` name prefix is whitespace-free. -/
theorem bilayer_prefix_no_ws (j : Nat) :
    ∀ c ∈ ("Bilayer" ++ Nat.repr j).toList, isPySpace c = false := by
  intro c hc
  have hsplit : ("Bilayer" ++ Nat.repr j).toList =
      "Bilayer".toList ++ (Nat.repr j).data := by
    show ("Bilayer" ++ Nat.repr j).data = _
    exact String.data_append _ _
  rw [hsplit, List.mem_append] at hc
  rcases hc with hc | hc
  · fin_cases hc <;> decide
  · exact digit_not_pySpace c (repr_data_digit j c hc)

/-- Bilayer parameter names (`Bilayer<j><suffix>` with a space-initial
suffix that is itself collapsed) are whitespace-collapsed. -/
theorem bilayerName_ws (j : Nat) (sfx : String) (hsfx : wsCollapsed sfx = true) :
    wsCollapsed ("Bilayer" ++ Nat.repr j ++ sfx) = true := by
  apply wsCollapsed_append _ _ (wsCollapsed_of_no_ws _ (bilayer_prefix_no_ws j)) hsfx
  intro c hlast hsp _
  have hmem : c ∈ ("Bilayer" ++ Nat.repr j).toList :=
    List.mem_of_mem_getLast? hlast
  have := bilayer_prefix_no_ws j c hmem
  rw [hsp] at this
  simp [isPySpace] at this

/-- Layer parameter names (`<clean> <suffix>` with the cleaned layer name
trimmed and collapsed) are whitespace-collapsed. -/
theorem layerName_ws (s sfx : String) (hsfx : wsCollapsed sfx = true) :
    wsCollapsed (pyStrip (collapseWs s) ++ sfx) = true := by
  apply wsCollapsed_append _ _ (cleanName_props s).1 hsfx
  intro c hlast hsp
  exact absurd hsp ((cleanName_props s).2 c hlast)


theorem layerParamLines_name_ws (L : Layer) (l : DLine)
    (hl : l ∈ layerParamLines L) (n : String) (lo v hi : ℚ) (fit : Bool)
    (he : l = DLine.paramDecl n lo v hi fit) : wsCollapsed n = true := by
  simp only [layerParamLines, List.mem_cons, List.not_mem_nil, or_false] at hl
  rcases hl with rfl | rfl | rfl <;>
    · injection he with h1 h2 h3 h4 h5
      subst h1
      exact layerName_ws L.name _ (by decide)

theorem bilayerParamLines_name_ws (j : Nat) (bl : BilayerSpec) (l : DLine)
    (hl : l ∈ bilayerParamLines j bl) (n : String) (lo v hi : ℚ) (fit : Bool)
    (he : l = DLine.paramDecl n lo v hi fit) : wsCollapsed n = true := by
  simp only [bilayerParamLines, List.mem_cons, List.not_mem_nil, or_false] at hl
  rcases hl with rfl | rfl | rfl | rfl | rfl | rfl
  · simp at he
  all_goals
    · injection he with h1 h2 h3 h4 h5
      subst h1
      exact bilayerName_ws j _ (by decide)

theorem bilayerParamSection_mem :
    ∀ (bls : List BilayerSpec) (start : Nat) (l : DLine),
      l ∈ bilayerParamSection start bls → ∃ j bl, l ∈ bilayerParamLines j bl
  | [], _, l => by simp [bilayerParamSection]
  | bl :: bls, start, l => by
    intro h
    rw [bilayerParamSection, List.mem_append] at h
    rcases h with h | h
    · exact ⟨start, bl, h⟩
    · exact bilayerParamSection_mem bls (start + 1) l h

theorem layerParamLines_shapes (L : Layer) :
    ∀ l ∈ layerParamLines L, l.isParamDecl = true := by
  intro l hl
  simp only [layerParamLines, List.mem_cons, List.not_mem_nil, or_false] at hl
  rcases hl with rfl | rfl | rfl <;> rfl

theorem bilayerParamLines_shapes (j : Nat) (bl : BilayerSpec) :
    ∀ l ∈ bilayerParamLines j bl,
      l.isParamDecl = true ∨ ∃ s, l = DLine.comment s := by
  intro l hl
  simp only [bilayerParamLines, List.mem_cons, List.not_mem_nil, or_false] at hl
  rcases hl with rfl | rfl | rfl | rfl | rfl | rfl
  · exact Or.inr ⟨_, rfl⟩
  all_goals exact Or.inl rfl

theorem driverParamGroup_shapes (internal : List Layer) (specs : List BilayerSpec)
    (l : DLine) (hl : l ∈ driverParamGroupLines internal specs) :
    l.isParamDecl = true ∨ ∃ s, l = DLine.comment s := by
  rw [driverParamGroupLines, List.mem_append] at hl
  rcases hl with hl | hl
  · rw [List.mem_flatMap] at hl
    obtain ⟨L, _, hmem⟩ := hl
    exact Or.inl (layerParamLines_shapes L l hmem)
  · obtain ⟨j, bl, hmem⟩ := bilayerParamSection_mem specs 1 l hl
    exact bilayerParamLines_shapes j bl l hmem

theorem driverParamGroup_name_ws (internal : List Layer) (specs : List BilayerSpec)
    (l : DLine) (hl : l ∈ driverParamGroupLines internal specs) (n : String)
    (lo v hi : ℚ) (fit : Bool) (he : l = DLine.paramDecl n lo v hi fit) :
    wsCollapsed n = true := by
  rw [driverParamGroupLines, List.mem_append] at hl
  rcases hl with hl | hl
  · rw [List.mem_flatMap] at hl
    obtain ⟨L, _, hmem⟩ := hl
    exact layerParamLines_name_ws L l hmem n lo v hi fit he
  · obtain ⟨j, bl, hmem⟩ := bilayerParamSection_mem specs 1 l hl
    exact bilayerParamLines_name_ws j bl l hmem n lo v hi fit he

theorem ensure_bulk_decls_mem (func : String) (side : BulkSide) (bulk : Bulk) :
    ∀ l ∈ (ensure_bulk func side bulk).2.1,
      ∃ f m lo v hi fit, l = DLine.bulkDecl f m lo v hi fit := by
  unfold ensure_bulk
  cases h : lookupKey side.mapping (bulk.name, pyRound8 bulk.sld) <;> simp [h]

theorem bulkFold_decls_mem :
    ∀ (ps : List (Bulk × Bulk)) (si so : BulkSide) (l : DLine),
      l ∈ (bulkFold ps si so).2.2.1 →
        ∃ f m lo v hi fit, l = DLine.bulkDecl f m lo v hi fit
  | [], _, _, l => by simp [bulkFold]
  | (b1, b2) :: rest, si, so, l => by
    intro h
    simp only [bulkFold] at h
    rw [List.mem_append, List.mem_append] at h
    rcases h with (h | h) | h
    · exact ensure_bulk_decls_mem "addBulkIn" si b1 l h
    · exact ensure_bulk_decls_mem "addBulkOut" so b2 l h
    · exact bulkFold_decls_mem rest _ _ l h

theorem contrastLinesAux_mem (bin bout : List String) :
    ∀ (names : List String) (j : Nat) (ls : List DLine),
      contrastLinesAux bin bout j names = Except.ok ls →
      ∀ l ∈ ls, ∃ i s b1 b2, l = DLine.contrastBlock i (safeContrastName s) b1 b2 := by
  intro names
  induction names with
  | nil =>
    intro j ls h
    simp only [contrastLinesAux] at h
    cases h
    intro l hl
    simp at hl
  | cons c rest ih =>
    intro j ls h
    simp only [contrastLinesAux] at h
    cases hb1 : bin.get? j with
    | none => rw [hb1] at h; cases hb2 : bout.get? j <;> rw [hb2] at h <;> cases h
    | some b1 =>
      rw [hb1] at h
      cases hb2 : bout.get? j with
      | none => rw [hb2] at h; cases h
      | some b2 =>
        rw [hb2] at h
        cases hr : contrastLinesAux bin bout (j + 1) rest with
        | error e => rw [hr] at h; cases h
        | ok ls2 =>
          rw [hr] at h
          simp only [Except.map] at h
          cases h
          intro l hl
          rcases List.mem_cons.mp hl with rfl | hl
          · exact ⟨j + 1, c, b1, b2, rfl⟩
          · exact ih (j + 1) ls2 hr l hl

/-- C9 (counterexample): the driver embeds layer names after collapsing
whitespace runs and trimming, but performs no ASCII stripping: the layer
named `"Göld  x"` yields parameter declarations named `"Göld x thickness"`
etc., which contain the non-ASCII character `ö` — so generated layer names
are *not* stripped to ASCII before being embedded. -/
theorem C9_counterexample :
    (emit_matlab_driver "x" binsC1 binsC1 layersAllC9 "d.ort" ["c1"] []).map
        (fun ls => ls.filterMap DLine.paramDeclName) =
      Except.ok ["Göld x thickness", "Göld x SLD", "Göld x rough"] ∧
      wsCollapsed "Göld x thickness" = true ∧
      allAscii "Göld x thickness" = false := by
  exact ⟨rfl, by decide, by decide⟩

/-- C9 (amended): in any successfully emitted driver script, every parameter
declaration name (derived from layer names by collapsing whitespace runs and
trimming, or built from the whitespace-free `Bilayer<j>` prefixes) is
whitespace-collapsed — but not ASCII-stripped — while every contrast name
embedded in a contrast block is sanitized to regex word characters
`[A-Za-z0-9_]` and is therefore pure ASCII. -/
theorem C9_identifier_sanitization (base ort : String) (bins bouts : List Bulk)
    (first : List Layer) (rest : List (List Layer)) (names : List String)
    (specs : List BilayerSpec) (lines : List DLine)
    (hok : emit_matlab_driver base bins bouts (first :: rest) ort names specs =
      Except.ok lines) :
    (∀ l ∈ lines, ∀ n lo v hi fit, l = DLine.paramDecl n lo v hi fit →
        wsCollapsed n = true) ∧
      (∀ l ∈ lines, ∀ i safe b1 b2, l = DLine.contrastBlock i safe b1 b2 →
        safe.toList.all isWordChar = true ∧ allAscii safe = true) := by
  rw [emit_matlab_driver_eq] at hok
  cases hc : contrastLinesAux (bulkFold (bins.zip bouts) ⟨[], []⟩ ⟨[], []⟩).2.2.2.1
      (bulkFold (bins.zip bouts) ⟨[], []⟩ ⟨[], []⟩).2.2.2.2 0 names with
  | error e =>
    rw [hc] at hok
    simp [Except.map] at hok
  | ok cls =>
    rw [hc] at hok
    simp only [Except.map, Except.ok.injEq] at hok
    subst hok
    constructor
    · intro l hl n lo v hi fit he
      simp only [List.append_assoc, List.mem_append, List.mem_cons, List.not_mem_nil,
        or_false, or_assoc] at hl
      rcases hl with rfl | hl | rfl | rfl | rfl | rfl | hl | rfl | rfl | hl | rfl
      · simp at he
      · exact driverParamGroup_name_ws _ _ l hl n lo v hi fit he
      · simp at he
      · simp at he
      · simp at he
      · simp at he
      · obtain ⟨f, m, lo2, v2, hi2, fit2, rfl⟩ := bulkFold_decls_mem _ _ _ l hl
        simp at he
      · simp at he
      · simp at he
      · obtain ⟨i2, s, c1, c2, rfl⟩ := contrastLinesAux_mem _ _ names 0 cls hc l hl
        simp at he
      · simp at he
    · intro l hl i safe b1 b2 he
      simp only [List.append_assoc, List.mem_append, List.mem_cons, List.not_mem_nil,
        or_false, or_assoc] at hl
      rcases hl with rfl | hl | rfl | rfl | rfl | rfl | hl | rfl | rfl | hl | rfl
      · simp at he
      · rcases driverParamGroup_shapes _ _ l hl with hs | ⟨s, rfl⟩
        · rw [he] at hs
          simp [DLine.isParamDecl] at hs
        · simp at he
      · simp at he
      · simp at he
      · simp at he
      · simp at he
      · obtain ⟨f, m, lo2, v2, hi2, fit2, rfl⟩ := bulkFold_decls_mem _ _ _ l hl
        simp at he
      · simp at he
      · simp at he
      · obtain ⟨j2, s, c1, c2, rfl⟩ := contrastLinesAux_mem _ _ names 0 cls hc l hl
        injection he with h1 h2 h3 h4
        subst h2
        exact ⟨safeContrastName_wordChars s, safeContrastName_ascii s⟩
      · simp at he

/-- C9 (witness): concrete driver emission over the non-ASCII layer fixture
succeeds and the amended sanitization properties hold for its lines. -/
theorem C9_witness :
    ∃ ls, emit_matlab_driver "x" binsC1 binsC1 layersAllC9 "d.ort" ["c1"] [blW] =
        Except.ok ls ∧
      (∀ l ∈ ls, ∀ n lo v hi fit, l = DLine.paramDecl n lo v hi fit →
        wsCollapsed n = true) ∧
      (∀ l ∈ ls, ∀ i safe b1 b2, l = DLine.contrastBlock i safe b1 b2 →
        safe.toList.all isWordChar = true ∧ allAscii safe = true) := by
  have h : emit_matlab_driver "x" binsC1 binsC1 layersAllC9 "d.ort" ["c1"] [blW] =
      Except.ok ((emit_matlab_driver "x" binsC1 binsC1 layersAllC9 "d.ort" ["c1"]
        [blW]).toOption.getD []) := rfl
  exact ⟨_, h, C9_identifier_sanitization "x" "d.ort" binsC1 binsC1 _ _ ["c1"] [blW] _ h⟩

end OrtToRat
